import Mathlib

/-!
Shallow embedding of the BHV2 decoder from `src/bhv2.c` / `src/bhv2.h` and the
trial layer from `src/ml_trial.c` of the presto.c repository.

The byte source is a `List Nat` of remaining bytes (each in `0..255`); the
POSIX file descriptor's sequential reads and forward seeks become state passing
over that list.  Machine `uint64_t` values are `Nat` with explicit `% 2 ^ 64`
where the C multiplies.  The unbounded C recursion is driven by an explicit
`fuel` parameter; running out of fuel yields the artificial error
`BhvErr.outOfFuel`, which corresponds to no behavior of the C code (the C
recursion is unbounded), so theorems never identify it with a real outcome.
-/

set_option maxRecDepth 100000

/-- Error codes of `bhv2_error_t` (bhv2.h), plus `outOfFuel`, the artifact of
the fuel-bounded embedding of the unbounded C recursion. -/
inductive BhvErr where
  | ioError
  | memoryError
  | formatError
  | notFoundError
  | outOfFuel
deriving DecidableEq, Repr

/-- State-and-error monad over the remaining bytes of the file descriptor.
Mirrors sequential POSIX reads: on failure the descriptor keeps whatever
position the partial read left it at. -/
def StreamM (α : Type) : Type := List Nat → Except BhvErr α × List Nat

def StreamM.pure {α : Type} (a : α) : StreamM α := fun s => (Except.ok a, s)

def StreamM.bind {α β : Type} (m : StreamM α) (f : α → StreamM β) : StreamM β :=
  fun s =>
    match m s with
    | (Except.ok a, s') => f a s'
    | (Except.error e, s') => (Except.error e, s')

instance : Monad StreamM where
  pure := StreamM.pure
  bind := StreamM.bind

/-- Raise an error, leaving the cursor where it is (`set_error` + early return). -/
def throwErr {α : Type} (e : BhvErr) : StreamM α := fun s => (Except.error e, s)

/-- Sanity bounds from bhv2.h. -/
def BHV2_MAX_NAME_LENGTH : Nat := 10000

def BHV2_MAX_TYPE_LENGTH : Nat := 100

def BHV2_MAX_NDIMS : Nat := 100

/-- `2 ^ 64`, the modulus of `uint64_t` arithmetic. -/
def U64MOD : Nat := 2 ^ 64

/-- Little-endian value of a byte list (first byte least significant). -/
def leNat : List Nat → Nat
  | [] => 0
  | b :: bs => b + 256 * leNat bs

/-- `read_uint64_posix`: consume 8 little-endian bytes; `IoError` on short read
(the short read still consumes what was available). -/
def read_uint64_posix : StreamM Nat := fun s =>
  if 8 ≤ s.length then (Except.ok (leNat (s.take 8)), s.drop 8)
  else (Except.error BhvErr.ioError, s.drop 8)

/-- `read_string_posix`: consume `length` bytes and return them (length 0 reads
nothing and yields the empty string); `IoError` on short read. -/
def read_string_posix (length : Nat) : StreamM (List Nat) := fun s =>
  if length ≤ s.length then (Except.ok (s.take length), s.drop length)
  else (Except.error BhvErr.ioError, s.drop length)

/-- Exact read of `n` raw bytes (the `read(fd, buf, n) != n` pattern). -/
def read_bytes_posix (n : Nat) : StreamM (List Nat) := fun s =>
  if n ≤ s.length then (Except.ok (s.take n), s.drop n)
  else (Except.error BhvErr.ioError, s.drop n)

/-- `skip_bytes_posix`: `lseek(fd, count, SEEK_CUR)`; never fails, and seeking
past the end leaves nothing left to read. -/
def skip_bytes_posix (count : Nat) : StreamM Unit := fun s =>
  (Except.ok (), s.drop count)

/-- Split `n * 8` bytes into `n` little-endian `uint64_t` values (the single
`read(fd, dims, ndims * sizeof(uint64_t))` of the C code). -/
def bytesToWords : Nat → List Nat → List Nat
  | 0, _ => []
  | n + 1, bs => leNat (bs.take 8) :: bytesToWords n (bs.drop 8)

/-- Read the `ndims` dimension values in one call, as the C code does. -/
def read_dims (ndims : Nat) : StreamM (List Nat) := fun s =>
  if ndims * 8 ≤ s.length then
    (Except.ok (bytesToWords ndims (s.take (ndims * 8))), s.drop (ndims * 8))
  else (Except.error BhvErr.ioError, s.drop (ndims * 8))

/-!  Type registry (`matlab_dtype_t` and its helpers). -/

inductive MatlabDtype where
  | double
  | single
  | uint8
  | uint16
  | uint32
  | uint64
  | int8
  | int16
  | int32
  | int64
  | logical
  | char
  | struct
  | cell
  | unknown
deriving DecidableEq, Repr

/-- Bytes of an ASCII string literal. -/
def ascii (s : String) : List Nat := s.data.map Char.toNat

/-- A C string's observable content: the bytes before the first NUL. -/
def cstr (l : List Nat) : List Nat := l.takeWhile (fun b => b ≠ 0)

/-- `matlab_dtype_from_string`: exact `strcmp` match against the tag set.
`strcmp` sees the stored buffer as a NUL-terminated string, hence `cstr`. -/
def matlab_dtype_from_string (s : List Nat) : MatlabDtype :=
  let t := cstr s
  if t = ascii "double" then MatlabDtype.double
  else if t = ascii "single" then MatlabDtype.single
  else if t = ascii "uint8" then MatlabDtype.uint8
  else if t = ascii "uint16" then MatlabDtype.uint16
  else if t = ascii "uint32" then MatlabDtype.uint32
  else if t = ascii "uint64" then MatlabDtype.uint64
  else if t = ascii "int8" then MatlabDtype.int8
  else if t = ascii "int16" then MatlabDtype.int16
  else if t = ascii "int32" then MatlabDtype.int32
  else if t = ascii "int64" then MatlabDtype.int64
  else if t = ascii "logical" then MatlabDtype.logical
  else if t = ascii "char" then MatlabDtype.char
  else if t = ascii "struct" then MatlabDtype.struct
  else if t = ascii "cell" then MatlabDtype.cell
  else MatlabDtype.unknown

/-- `matlab_dtype_size`: per-element byte width; 0 for struct/cell/unknown. -/
def matlab_dtype_size : MatlabDtype → Nat
  | MatlabDtype.double => 8
  | MatlabDtype.single => 4
  | MatlabDtype.uint8 => 1
  | MatlabDtype.uint16 => 2
  | MatlabDtype.uint32 => 4
  | MatlabDtype.uint64 => 8
  | MatlabDtype.int8 => 1
  | MatlabDtype.int16 => 2
  | MatlabDtype.int32 => 4
  | MatlabDtype.int64 => 8
  | MatlabDtype.logical => 1
  | MatlabDtype.char => 1
  | _ => 0

/-- The eleven dtypes stored through the numeric union arms of `bhv2_value_t`
(the cases of the `switch` in `read_numeric_array_posix`). -/
def is_numeric_dtype : MatlabDtype → Bool
  | MatlabDtype.double => true
  | MatlabDtype.single => true
  | MatlabDtype.uint8 => true
  | MatlabDtype.uint16 => true
  | MatlabDtype.uint32 => true
  | MatlabDtype.uint64 => true
  | MatlabDtype.int8 => true
  | MatlabDtype.int16 => true
  | MatlabDtype.int32 => true
  | MatlabDtype.int64 => true
  | MatlabDtype.logical => true
  | _ => false

/-!  Value model (`bhv2_value_t`).  The union arm is determined by the dtype,
so the embedding fuses the tag and the payload into one constructor choice;
`dims` is kept as a list (its length is the C `ndims` field) and `total` is
kept as a separate field exactly as the C struct stores it.  A struct field
slot is a pair of the optional name and the optional value; a slot left at its
`calloc` zero state by the selective reader is `(none, none)`. -/
inductive BhvValue where
  | numeric (dtype : MatlabDtype) (dims : List Nat) (total : Nat) (bytes : List Nat)
  | charArr (dims : List Nat) (total : Nat) (str : List Nat)
  | structArr (dims : List Nat) (total : Nat) (n_fields : Nat)
      (fields : List (Option (List Nat) × Option BhvValue))
  | cellArr (dims : List Nat) (total : Nat) (cells : List BhvValue)

/-- The `dtype` field of a `bhv2_value_t`. -/
def BhvValue.dtype : BhvValue → MatlabDtype
  | BhvValue.numeric d _ _ _ => d
  | BhvValue.charArr _ _ _ => MatlabDtype.char
  | BhvValue.structArr _ _ _ _ => MatlabDtype.struct
  | BhvValue.cellArr _ _ _ => MatlabDtype.cell

/-- The `dims` field. -/
def BhvValue.dims : BhvValue → List Nat
  | BhvValue.numeric _ ds _ _ => ds
  | BhvValue.charArr ds _ _ => ds
  | BhvValue.structArr ds _ _ _ => ds
  | BhvValue.cellArr ds _ _ => ds

/-- The `total` field. -/
def BhvValue.total : BhvValue → Nat
  | BhvValue.numeric _ _ t _ => t
  | BhvValue.charArr _ t _ => t
  | BhvValue.structArr _ t _ _ => t
  | BhvValue.cellArr _ t _ => t

/-- `bhv2_value_new`'s total computation: `total = 1; total *= dims[i]` in
wrapping `uint64_t` arithmetic. -/
def computeTotal (dims : List Nat) : Nat :=
  dims.foldl (fun acc d => acc * d % U64MOD) 1

/-!  Recursive decoder.  The value header (tag string, `ndims`, dims) is read
by byte-identical code at the top of `bhv2_read_value_posix`,
`bhv2_skip_value_posix` and `bhv2_read_variable_data_selective`, so the
embedding shares one definition for it. -/

/-- The common prelude of all three decode modes: length-prefixed type tag
(bounded by `BHV2_MAX_TYPE_LENGTH`, must resolve to a known dtype), then
`ndims` (bounded by `BHV2_MAX_NDIMS`) and the dimension values. -/
def read_value_header : StreamM (MatlabDtype × List Nat) := do
  let dtype_len ← read_uint64_posix
  if dtype_len > BHV2_MAX_TYPE_LENGTH then
    throwErr BhvErr.formatError
  else do
    let dtype_string ← read_string_posix dtype_len
    let dtype := matlab_dtype_from_string dtype_string
    if dtype = MatlabDtype.unknown then
      throwErr BhvErr.formatError
    else do
      let ndims ← read_uint64_posix
      if ndims > BHV2_MAX_NDIMS then
        throwErr BhvErr.formatError
      else do
        let dims ← read_dims ndims
        pure (dtype, dims)

/-- `read_numeric_array_posix`: one contiguous read of
`total * element width` bytes (`size_t` multiplication wraps mod `2 ^ 64`),
then the union-member switch, whose default arm is a `FormatError`. -/
def read_numeric_array_posix (dtype : MatlabDtype) (dims : List Nat) :
    StreamM BhvValue := do
  let total := computeTotal dims
  let total_bytes := total * matlab_dtype_size dtype % U64MOD
  let data ← read_bytes_posix total_bytes
  if is_numeric_dtype dtype then
    pure (BhvValue.numeric dtype dims total data)
  else
    throwErr BhvErr.formatError

/-- `read_char_array_posix`: `total` raw bytes, flattened to a string (the
C code reads only when `total > 0`, which a zero-length read also models). -/
def read_char_array_posix (dims : List Nat) : StreamM BhvValue := do
  let total := computeTotal dims
  let data ← read_bytes_posix total
  pure (BhvValue.charArr dims total data)

/-- The field loop of `read_struct_array_posix`: `total * n_fields` sequential
(length-prefixed name, recursively decoded value) pairs; a name longer than
`BHV2_MAX_NAME_LENGTH` is a `FormatError`.  The recursive value reader is a
parameter so that the loop is shared by cell/struct shapes of recursion. -/
def read_struct_fields (readVal : StreamM BhvValue) :
    Nat → StreamM (List (Option (List Nat) × Option BhvValue))
  | 0 => pure []
  | count + 1 => do
    let name_len ← read_uint64_posix
    if name_len > BHV2_MAX_NAME_LENGTH then
      throwErr BhvErr.formatError
    else do
      let name ← read_string_posix name_len
      let v ← readVal
      let rest ← read_struct_fields readVal count
      pure ((some name, some v) :: rest)

/-- `read_struct_array_posix` minus the recursive knot: field count, then the
field loop over `total * n_fields` slots. -/
def read_struct_array_core (readVal : StreamM BhvValue) (dims : List Nat) :
    StreamM BhvValue := do
  let total := computeTotal dims
  let n_fields ← read_uint64_posix
  let fields ← read_struct_fields readVal (total * n_fields)
  pure (BhvValue.structArr dims total n_fields fields)

/-- The element loop of `read_cell_array_posix`: each element is a
length-prefixed name (skipped, never length-checked), then an inlined value
header and the element's array data. -/
def read_cell_elems (readData : MatlabDtype → List Nat → StreamM BhvValue) :
    Nat → StreamM (List BhvValue)
  | 0 => pure []
  | count + 1 => do
    let name_len ← read_uint64_posix
    skip_bytes_posix name_len
    let (cell_dtype, cell_dims) ← read_value_header
    let v ← readData cell_dtype cell_dims
    let rest ← read_cell_elems readData count
    pure (v :: rest)

/-- `read_cell_array_posix` minus the recursive knot. -/
def read_cell_array_core (readData : MatlabDtype → List Nat → StreamM BhvValue)
    (dims : List Nat) : StreamM BhvValue := do
  let total := computeTotal dims
  let cells ← read_cell_elems readData total
  pure (BhvValue.cellArr dims total cells)

/-- `read_array_data_posix`: dispatch on the dtype, recursing (against the
fuel) for struct fields and cell elements.  The struct branch recurses through
a full `bhv2_read_value_posix` (header plus array data); the cell branch
recurses through `read_array_data_posix` directly, its header being inlined in
the element loop. -/
def read_array_data_posix : Nat → MatlabDtype → List Nat → StreamM BhvValue
  | 0, _, _ => throwErr BhvErr.outOfFuel
  | fuel + 1, dtype, dims =>
    match dtype with
    | MatlabDtype.double | MatlabDtype.single
    | MatlabDtype.uint8 | MatlabDtype.uint16
    | MatlabDtype.uint32 | MatlabDtype.uint64
    | MatlabDtype.int8 | MatlabDtype.int16
    | MatlabDtype.int32 | MatlabDtype.int64
    | MatlabDtype.logical =>
      read_numeric_array_posix dtype dims
    | MatlabDtype.char => read_char_array_posix dims
    | MatlabDtype.struct =>
      read_struct_array_core
        (do
          let (d, ds) ← read_value_header
          read_array_data_posix fuel d ds)
        dims
    | MatlabDtype.cell =>
      read_cell_array_core (fun d ds => read_array_data_posix fuel d ds) dims
    | MatlabDtype.unknown => throwErr BhvErr.formatError

/-- `bhv2_read_value_posix` (mode 1, full decode). -/
def bhv2_read_value_posix (fuel : Nat) : StreamM BhvValue := do
  let (dtype, dims) ← read_value_header
  read_array_data_posix fuel dtype dims

/-!  Skip mode. -/

/-- The shared loop shape of `skip_array_data_posix` for struct fields and
cell elements: a length-prefixed name, seeked past with no length check, then
a recursive `bhv2_skip_value_posix`. -/
def skip_named_values (skipVal : StreamM Unit) : Nat → StreamM Unit
  | 0 => pure ()
  | count + 1 => do
    let name_len ← read_uint64_posix
    skip_bytes_posix name_len
    skipVal
    skip_named_values skipVal count

/-- `skip_array_data_posix`: struct skips a field count then
`total * n_fields` named values; cell skips `total` named values; numeric and
char seek past `total * element width` bytes.  The `element width = 0` branch
is unreachable here (struct/cell are handled above and `unknown` is rejected
by the header); in C it returns `-1` without setting a fresh error, modelled
as a `FormatError`. -/
def skip_array_data_posix : Nat → MatlabDtype → List Nat → StreamM Unit
  | 0, _, _ => throwErr BhvErr.outOfFuel
  | fuel + 1, dtype, dims =>
    let total := computeTotal dims
    if dtype = MatlabDtype.struct then do
      let n_fields ← read_uint64_posix
      skip_named_values
        (do
          let (d, ds) ← read_value_header
          skip_array_data_posix fuel d ds)
        (total * n_fields)
    else if dtype = MatlabDtype.cell then
      skip_named_values
        (do
          let (d, ds) ← read_value_header
          skip_array_data_posix fuel d ds)
        total
    else
      let elem_size := matlab_dtype_size dtype
      if elem_size = 0 then throwErr BhvErr.formatError
      else skip_bytes_posix (total * elem_size % U64MOD)

/-- `bhv2_skip_value_posix` (mode 2): identical header handling to mode 1,
then a structural skip of the payload. -/
def bhv2_skip_value_posix (fuel : Nat) : StreamM Unit := do
  let (dtype, dims) ← read_value_header
  skip_array_data_posix fuel dtype dims

/-!  Selective struct decode (mode 3). -/

/-- The `wanted` test of `read_struct_selective_posix`: a NULL array wants
nothing; otherwise any `strcmp` match against the NULL-terminated array. -/
def is_wanted_field (wanted : Option (List (List Nat))) (name : List Nat) : Bool :=
  match wanted with
  | none => false
  | some ws => ws.any (fun w => cstr name = cstr w)

/-- The field loop of `read_struct_selective_posix`: read each length-checked
field name; a wanted field keeps its name and is fully decoded (mode 1), any
other field's slot stays at its zeroed state and its value is skipped
(mode 2). -/
def read_selective_fields (fuel : Nat) (wanted : Option (List (List Nat))) :
    Nat → StreamM (List (Option (List Nat) × Option BhvValue))
  | 0 => pure []
  | count + 1 => do
    let name_len ← read_uint64_posix
    if name_len > BHV2_MAX_NAME_LENGTH then
      throwErr BhvErr.formatError
    else do
      let field_name ← read_string_posix name_len
      if is_wanted_field wanted field_name then do
        let v ← bhv2_read_value_posix fuel
        let rest ← read_selective_fields fuel wanted count
        pure ((some field_name, some v) :: rest)
      else do
        bhv2_skip_value_posix fuel
        let rest ← read_selective_fields fuel wanted count
        pure ((none, none) :: rest)

/-- `read_struct_selective_posix`: field count, then the selective field loop
over `total * n_fields` slots. -/
def read_struct_selective_posix (fuel : Nat) (dims : List Nat)
    (wanted : Option (List (List Nat))) : StreamM BhvValue := do
  let total := computeTotal dims
  let n_fields ← read_uint64_posix
  let fields ← read_selective_fields fuel wanted (total * n_fields)
  pure (BhvValue.structArr dims total n_fields fields)

/-!  Value accessors (`bhv2_struct_get`, `bhv2_cell_get`, `bhv2_get_double`,
`bhv2_get_string`). -/

/-- Outcome of `bhv2_struct_get`, separating the C NULL-plus-error-code
returns from the in-bounds pointer return (which is the slot's stored value
pointer, itself possibly NULL). -/
inductive StructGetResult where
  | found (v : Option BhvValue)
  | notStruct
  | indexOutOfBounds
  | fieldNotFound

/-- The returned pointer: NULL for every error outcome. -/
def StructGetResult.toPtr : StructGetResult → Option BhvValue
  | StructGetResult.found v => v
  | _ => none

/-- The field-scan loop of `bhv2_struct_get`: walk `count` slots starting at
flat index `pos`, skipping slots whose name is NULL, returning the value of
the first slot whose name `strcmp`-matches.  Out-of-range slot accesses (never
reached from decoded values) read as empty slots. -/
def struct_get_scan (fields : List (Option (List Nat) × Option BhvValue))
    (field : List Nat) (pos : Nat) : Nat → StructGetResult
  | 0 => StructGetResult.fieldNotFound
  | count + 1 =>
    let slot := fields.getD pos (none, none)
    match slot.1 with
    | none => struct_get_scan fields field (pos + 1) count
    | some nm =>
      if cstr nm = cstr field then StructGetResult.found slot.2
      else struct_get_scan fields field (pos + 1) count

/-- `bhv2_struct_get`: struct check, element bound check, then a linear scan
of element `index`'s `n_fields` slots. -/
def bhv2_struct_get (value : BhvValue) (field : List Nat) (index : Nat) :
    StructGetResult :=
  match value with
  | BhvValue.structArr _ total n_fields fields =>
    if index ≥ total then StructGetResult.indexOutOfBounds
    else struct_get_scan fields field (index * n_fields) n_fields
  | _ => StructGetResult.notStruct

/-- `bhv2_cell_get`: NULL for non-cell values or an out-of-bounds index. -/
def bhv2_cell_get (value : BhvValue) (index : Nat) : Option BhvValue :=
  match value with
  | BhvValue.cellArr _ total cells =>
    if index ≥ total then none else cells.get? index
  | _ => none

/-!  `bhv2_get_double`.  The C function returns a `double`.  Decoding the
stored bytes of a `double`/`single` element is exact bit manipulation, so the
embedding represents the returned double as an exact rational (or an infinity
or NaN); no floating-point arithmetic is performed.  The one approximation:
converting an `(u)int64` element whose magnitude exceeds `2 ^ 53` to `double`
rounds in C, while the embedding keeps it exact. -/

/-- An IEEE-754 value as produced by pure decoding. -/
inductive CDouble where
  | finite (q : ℚ)
  | posInf
  | negInf
  | nan
deriving DecidableEq, Repr

/-- Decode 8 little-endian bytes as an IEEE-754 binary64 value. -/
def decodeF64 (bytes : List Nat) : CDouble :=
  let bits : Nat := leNat bytes
  let sign : Nat := bits / 2 ^ 63 % 2
  let expo : Nat := bits / 2 ^ 52 % 2 ^ 11
  let frac : Nat := bits % 2 ^ 52
  if expo = 2047 then
    if frac = 0 then (if sign = 1 then CDouble.negInf else CDouble.posInf)
    else CDouble.nan
  else
    let mant : Nat := if expo = 0 then frac else 2 ^ 52 + frac
    let e : Int := (if expo = 0 then 1 else (expo : Int)) - 1075
    let sgn : Int := if sign = 1 then -1 else 1
    CDouble.finite
      (if 0 ≤ e then mkRat (sgn * mant * 2 ^ e.toNat) 1
       else mkRat (sgn * mant) (2 ^ (-e).toNat))

/-- Decode 4 little-endian bytes as an IEEE-754 binary32 value (then widened
exactly to double, as the C cast does). -/
def decodeF32 (bytes : List Nat) : CDouble :=
  let bits : Nat := leNat bytes
  let sign : Nat := bits / 2 ^ 31 % 2
  let expo : Nat := bits / 2 ^ 23 % 2 ^ 8
  let frac : Nat := bits % 2 ^ 23
  if expo = 255 then
    if frac = 0 then (if sign = 1 then CDouble.negInf else CDouble.posInf)
    else CDouble.nan
  else
    let mant : Nat := if expo = 0 then frac else 2 ^ 23 + frac
    let e : Int := (if expo = 0 then 1 else (expo : Int)) - 150
    let sgn : Int := if sign = 1 then -1 else 1
    CDouble.finite
      (if 0 ≤ e then mkRat (sgn * mant * 2 ^ e.toNat) 1
       else mkRat (sgn * mant) (2 ^ (-e).toNat))

/-- Two's-complement reading of a `w * 8`-bit little-endian integer. -/
def leInt (w : Nat) (bytes : List Nat) : Int :=
  let v := leNat bytes
  if v < 2 ^ (8 * w - 1) then (v : Int) else (v : Int) - 2 ^ (8 * w)

/-- The element at `index` of a numeric payload, as the C array access
`value->data.<arm>[index]` sees it: `width` bytes starting at byte
`index * width`. -/
def numericElemBytes (width : Nat) (bytes : List Nat) (index : Nat) : List Nat :=
  (bytes.drop (index * width)).take width

/-- `bhv2_get_double`: 0.0 for a NULL value, an out-of-bounds index or a
non-numeric dtype; otherwise the element converted to double.  A `logical`
is read as a C `_Bool`: nonzero representation means true. -/
def bhv2_get_double (value : BhvValue) (index : Nat) : CDouble :=
  if index ≥ value.total then CDouble.finite 0
  else
    match value with
    | BhvValue.numeric dtype _ _ bytes =>
      match dtype with
      | MatlabDtype.double => decodeF64 (numericElemBytes 8 bytes index)
      | MatlabDtype.single => decodeF32 (numericElemBytes 4 bytes index)
      | MatlabDtype.uint8 => CDouble.finite (leNat (numericElemBytes 1 bytes index) : ℚ)
      | MatlabDtype.uint16 => CDouble.finite (leNat (numericElemBytes 2 bytes index) : ℚ)
      | MatlabDtype.uint32 => CDouble.finite (leNat (numericElemBytes 4 bytes index) : ℚ)
      | MatlabDtype.uint64 => CDouble.finite (leNat (numericElemBytes 8 bytes index) : ℚ)
      | MatlabDtype.int8 => CDouble.finite (leInt 1 (numericElemBytes 1 bytes index) : ℚ)
      | MatlabDtype.int16 => CDouble.finite (leInt 2 (numericElemBytes 2 bytes index) : ℚ)
      | MatlabDtype.int32 => CDouble.finite (leInt 4 (numericElemBytes 4 bytes index) : ℚ)
      | MatlabDtype.int64 => CDouble.finite (leInt 8 (numericElemBytes 8 bytes index) : ℚ)
      | MatlabDtype.logical =>
        CDouble.finite (if leNat (numericElemBytes 1 bytes index) ≠ 0 then 1 else 0)
      | _ => CDouble.finite 0
    | _ => CDouble.finite 0

/-- `bhv2_get_string`: the stored flattened string, NULL for non-char. -/
def bhv2_get_string (value : BhvValue) : Option (List Nat) :=
  match value with
  | BhvValue.charArr _ _ str => some str
  | _ => none

/-!  Variable stream (`bhv2_file_t` and the streaming API).  The file record
keeps the remaining bytes; the C `current_pos` is recovered as
`file_size - stream.length`, which agrees with the stored `lseek` position at
every point where the C code consults it. -/

structure Bhv2File where
  stream : List Nat
  file_size : Nat
  at_variable_data : Bool
deriving Repr

/-- The `current_pos` field as observed at the C code's checkpoints. -/
def Bhv2File.current_pos (f : Bhv2File) : Nat := f.file_size - f.stream.length

/-- `bhv2_open_stream` on an already-available byte source. -/
def bhv2_open_stream (bytes : List Nat) : Bhv2File :=
  { stream := bytes, file_size := bytes.length, at_variable_data := false }

/-- `bhv2_read_next_variable_name`: EOF once `current_pos` has reached the
file size; otherwise a length-checked, length-prefixed name, transitioning to
the awaiting-value state.  The C caller cannot distinguish EOF from a read
error (both are `-1`), so both map to `none`. -/
def bhv2_read_next_variable_name (f : Bhv2File) :
    Option (List Nat) × Bhv2File :=
  if f.current_pos ≥ f.file_size then (none, f)
  else
    match read_uint64_posix f.stream with
    | (Except.error _, s') => (none, { f with stream := s' })
    | (Except.ok name_len, s') =>
      if name_len > BHV2_MAX_NAME_LENGTH then (none, { f with stream := s' })
      else
        match read_string_posix name_len s' with
        | (Except.error _, s'') => (none, { f with stream := s'' })
        | (Except.ok name, s'') =>
          (some name, { f with stream := s'', at_variable_data := true })

/-- `bhv2_read_variable_data` (mode 1 at a variable): `FormatError` when not
positioned at variable data; otherwise a full decode, clearing the
positioned-at-data flag whether or not the decode succeeded. -/
def bhv2_read_variable_data (fuel : Nat) (f : Bhv2File) :
    Except BhvErr BhvValue × Bhv2File :=
  if !f.at_variable_data then (Except.error BhvErr.formatError, f)
  else
    let (r, s') := bhv2_read_value_posix fuel f.stream
    (r, { f with stream := s', at_variable_data := false })

/-- `bhv2_read_variable_data_selective` (mode 3 at a variable): same state
check, then an inlined value header; a struct dispatches to the selective
reader and anything else falls back to a full payload read.  Header failures
return before the flag-clearing epilogue, so they leave the
positioned-at-data flag set; after the payload attempt the flag is cleared
regardless of success. -/
def bhv2_read_variable_data_selective (fuel : Nat) (f : Bhv2File)
    (wanted : Option (List (List Nat))) : Except BhvErr BhvValue × Bhv2File :=
  if !f.at_variable_data then (Except.error BhvErr.formatError, f)
  else
    match read_value_header f.stream with
    | (Except.error e, s') => (Except.error e, { f with stream := s' })
    | (Except.ok (dtype, dims), s') =>
      let (r, s'') :=
        if dtype = MatlabDtype.struct then
          read_struct_selective_posix fuel dims wanted s'
        else
          read_array_data_posix fuel dtype dims s'
      (r, { f with stream := s'', at_variable_data := false })

/-- `bhv2_skip_variable_data` (mode 2 at a variable): same state check; a
failed skip returns before the epilogue, leaving the flag set. -/
def bhv2_skip_variable_data (fuel : Nat) (f : Bhv2File) :
    Except BhvErr Unit × Bhv2File :=
  if !f.at_variable_data then (Except.error BhvErr.formatError, f)
  else
    match bhv2_skip_value_posix fuel f.stream with
    | (Except.error e, s') => (Except.error e, { f with stream := s' })
    | (Except.ok _, s') =>
      (Except.ok (), { f with stream := s', at_variable_data := false })

/-!  Domain trial layer (`ml_trial.c`).  Trial filtering (`skips`) lives in
`skip.c`; the embedding models the default configuration `skips == NULL`,
under which `read_next_trial`'s filter block is not entered. -/

/-- `ml_trial_file_t` (without the `skips` pointer, modelled as NULL). -/
structure MlTrialFile where
  bhv2_file : Bhv2File
  current_trial_num : Int
  current_error_code : Int
  current_condition : Int
  current_block : Int
  current_data : Option BhvValue
  has_current : Bool

/-- `SKIP_DATA` / `WITH_DATA` from ml_trial.h. -/
inductive SkipDataFlag where
  | withData
  | skipData
deriving DecidableEq, Repr

/-- `trial_metadata_fields`: the selective-decode set for metadata passes. -/
def trial_metadata_fields : List (List Nat) :=
  [ascii "TrialError", ascii "Condition", ascii "Block"]

/-- `(int)` cast of a C double: truncation toward zero for finite values
(`Int.tdiv` of the numerator by the positive denominator is exactly that).
NaN or infinity would be undefined behavior in C; modelled as 0. -/
def cdoubleToInt : CDouble → Int
  | CDouble.finite q => q.num.tdiv (q.den : Int)
  | _ => 0

/-- Digit test of `isdigit` on a byte. -/
def isDigitByte (b : Nat) : Bool := 48 ≤ b && b ≤ 57

/-- Whitespace test of `isspace` on a byte. -/
def isSpaceByte (b : Nat) : Bool :=
  b = 32 || b = 9 || b = 10 || b = 11 || b = 12 || b = 13

/-- `atoi` on a C string given as its byte list: optional whitespace, optional
sign, then a maximal run of digits (overflow ignored). -/
def atoiBytes (l : List Nat) : Int :=
  let l1 := l.dropWhile isSpaceByte
  let neg : Bool := l1.getD 0 0 = 45
  let l2 := if l1.getD 0 0 = 45 ∨ l1.getD 0 0 = 43 then l1.drop 1 else l1
  let mag : Nat :=
    (l2.takeWhile isDigitByte).foldl (fun acc d => acc * 10 + (d - 48)) 0
  if neg then -(mag : Int) else (mag : Int)

/-- The trial test of `read_next_trial`:
`strncmp(name, "Trial", 5) == 0 && isdigit(name[5])`. -/
def is_trial_variable_name (name : List Nat) : Bool :=
  let c := cstr name
  c.take 5 = ascii "Trial" && isDigitByte (c.getD 5 0)

/-- `extract_trial_info`: the three metadata fields via
`bhv2_struct_get` + `bhv2_get_double` at element 0, each defaulting to `-1`
when the lookup returns NULL. -/
def extract_trial_info (file : MlTrialFile) (trial_value : BhvValue) :
    MlTrialFile :=
  let err :=
    match (bhv2_struct_get trial_value (ascii "TrialError") 0).toPtr with
    | some v => cdoubleToInt (bhv2_get_double v 0)
    | none => -1
  let cond :=
    match (bhv2_struct_get trial_value (ascii "Condition") 0).toPtr with
    | some v => cdoubleToInt (bhv2_get_double v 0)
    | none => -1
  let block :=
    match (bhv2_struct_get trial_value (ascii "Block") 0).toPtr with
    | some v => cdoubleToInt (bhv2_get_double v 0)
    | none => -1
  { file with
      current_error_code := err
      current_condition := cond
      current_block := block }

/-- `clear_trial_state`. -/
def clear_trial_state (file : MlTrialFile) : MlTrialFile :=
  { file with
      current_data := none
      current_trial_num := 0
      current_error_code := -1
      current_condition := -1
      current_block := -1
      has_current := false }

/-- The variable loop of `read_next_trial`.  `var_fuel` bounds the number of
loop iterations (unbounded in C, hence `none` when exhausted — an artifact
corresponding to no C behavior); `fuel` is the decode fuel.  A name-read
failure or EOF ends the loop with result 0; a trial decode failure returns
`-1`; a non-trial variable is skipped, its skip result ignored exactly as in
the C code. -/
def read_next_trial_loop (fuel : Nat) (flag : SkipDataFlag) :
    Nat → MlTrialFile → Option (Int × MlTrialFile)
  | 0, _ => none
  | var_fuel + 1, file =>
    match bhv2_read_next_variable_name file.bhv2_file with
    | (none, bf) => some (0, { file with bhv2_file := bf })
    | (some name, bf) =>
      let file := { file with bhv2_file := bf }
      if is_trial_variable_name name then
        let trial_num : Int := atoiBytes ((cstr name).drop 5)
        let (r, bf') :=
          match flag with
          | SkipDataFlag.skipData =>
            bhv2_read_variable_data_selective fuel file.bhv2_file
              (some trial_metadata_fields)
          | SkipDataFlag.withData =>
            bhv2_read_variable_data fuel file.bhv2_file
        let file := { file with bhv2_file := bf' }
        match r with
        | Except.error _ => some (-1, file)
        | Except.ok trial_data =>
          let file := { file with current_trial_num := trial_num }
          let file := extract_trial_info file trial_data
          let file := { file with has_current := true }
          let file :=
            match flag with
            | SkipDataFlag.skipData => file
            | SkipDataFlag.withData => { file with current_data := some trial_data }
          some (trial_num, file)
      else
        let (_, bf') := bhv2_skip_variable_data fuel file.bhv2_file
        read_next_trial_loop fuel flag var_fuel { file with bhv2_file := bf' }

/-- `read_next_trial` (with `skips == NULL`): clear the previous trial state,
then scan variables for the next trial. -/
def read_next_trial (fuel : Nat) (flag : SkipDataFlag) (var_fuel : Nat)
    (file : MlTrialFile) : Option (Int × MlTrialFile) :=
  read_next_trial_loop fuel flag var_fuel (clear_trial_state file)

/-- `open_input_file` composed with `bhv2_open_stream`. -/
def open_input_file (bytes : List Nat) : MlTrialFile :=
  { bhv2_file := bhv2_open_stream bytes
    current_trial_num := 0
    current_error_code := 0
    current_condition := 0
    current_block := 0
    current_data := none
    has_current := false }

/-!  Data-model invariant (§3 of the data model): `total` versus `dims`, and
`total` as the element count of each payload kind. -/

mutual

/-- The data-model invariant of a decoded value: `total` is the (wrapping)
product of `dims`, the payload holds `total` elements (numeric:
`total * width` bytes, with the C `size_t` wrap; char: `total` bytes; struct:
`total * n_fields` slots; cell: `total` children), and the invariant holds
recursively for every stored sub-value. -/
def value_inv : BhvValue → Bool
  | BhvValue.numeric d dims total bytes =>
    (total == computeTotal dims) &&
      (bytes.length == total * matlab_dtype_size d % U64MOD) && is_numeric_dtype d
  | BhvValue.charArr dims total str =>
    (total == computeTotal dims) && (str.length == total)
  | BhvValue.structArr dims total n_fields fields =>
    (total == computeTotal dims) && (fields.length == total * n_fields) &&
      fields_inv fields
  | BhvValue.cellArr dims total cells =>
    (total == computeTotal dims) && (cells.length == total) && values_inv cells

/-- Invariant over struct field slots: every stored sub-value is invariant. -/
def fields_inv : List (Option (List Nat) × Option BhvValue) → Bool
  | [] => true
  | (_, none) :: rest => fields_inv rest
  | (_, some v) :: rest => value_inv v && fields_inv rest

/-- Invariant over cell children. -/
def values_inv : List BhvValue → Bool
  | [] => true
  | v :: rest => value_inv v && values_inv rest

end

/-!  Wire-format builders (§6 grammar), used to construct concrete encoded
inputs for the theorems' witnesses. -/

/-- 8 little-endian bytes of a `uint64_t`. -/
def u64le (n : Nat) : List Nat :=
  [n % 256, n / 256 % 256, n / 256 ^ 2 % 256, n / 256 ^ 3 % 256,
   n / 256 ^ 4 % 256, n / 256 ^ 5 % 256, n / 256 ^ 6 % 256, n / 256 ^ 7 % 256]

/-- A length-prefixed string. -/
def encStr (s : String) : List Nat := u64le (ascii s).length ++ ascii s

/-- A length-prefixed raw byte string. -/
def encBytes (l : List Nat) : List Nat := u64le l.length ++ l

/-- `SimMap m k g`: whenever `m` succeeds, `k` succeeds from the same input,
consumes exactly the same bytes, and returns the image of `m`'s result. -/
def SimMap {α β : Type} (m : StreamM α) (k : StreamM β) (g : α → β) : Prop :=
  ∀ s a t, m s = (Except.ok a, t) → k s = (Except.ok (g a), t)

/-!  Mode 3 versus mode 1: selective decode returns the full decode's struct
with every unwanted slot blanked, consuming exactly the same bytes. -/

/-- What the selective reader keeps of a fully decoded slot: a wanted name
keeps the slot, anything else leaves the zeroed placeholder. -/
def selectiveMaskSlot (wanted : Option (List (List Nat)))
    (slot : Option (List Nat) × Option BhvValue) :
    Option (List Nat) × Option BhvValue :=
  match slot.1 with
  | some nm => if is_wanted_field wanted nm then slot else (none, none)
  | none => (none, none)

/-- What the selective reader returns in place of a fully decoded value. -/
def selectiveMask (wanted : Option (List (List Nat))) : BhvValue → BhvValue
  | BhvValue.structArr dims total n_fields fields =>
    BhvValue.structArr dims total n_fields (fields.map (selectiveMaskSlot wanted))
  | v => v

/-!  Concrete encoded samples used by the witnesses. -/

def c1_sample_bytes : List Nat :=
  encStr "struct" ++ u64le 1 ++ u64le 1 ++ u64le 2 ++
    encStr "A" ++ encStr "cell" ++ u64le 1 ++ u64le 1 ++
      u64le 0 ++ encStr "char" ++ u64le 1 ++ u64le 3 ++ ascii "abc" ++
    encStr "B" ++ encStr "uint16" ++ u64le 1 ++ u64le 2 ++ [1, 0, 2, 0] ++
    [1, 2, 3]

def c1_sample_value : BhvValue :=
  BhvValue.structArr [1] 1 2
    [(some (ascii "A"),
      some (BhvValue.cellArr [1] 1 [BhvValue.charArr [3] 3 (ascii "abc")])),
     (some (ascii "B"),
      some (BhvValue.numeric MatlabDtype.uint16 [2] 2 [1, 0, 2, 0]))]

def c2_sample_bytes : List Nat :=
  encStr "struct" ++ u64le 1 ++ u64le 1 ++ u64le 3 ++
    encStr "A" ++ encStr "uint8" ++ u64le 1 ++ u64le 1 ++ [10] ++
    encStr "B" ++ encStr "uint8" ++ u64le 1 ++ u64le 1 ++ [20] ++
    encStr "C" ++ encStr "uint8" ++ u64le 1 ++ u64le 1 ++ [30] ++ [7]

def c2_sample_file : Bhv2File :=
  { stream := c2_sample_bytes, file_size := c2_sample_bytes.length,
    at_variable_data := true }

def c2_sample_value : BhvValue :=
  BhvValue.structArr [1] 1 3
    [(some (ascii "A"), some (BhvValue.numeric MatlabDtype.uint8 [1] 1 [10])),
     (some (ascii "B"), some (BhvValue.numeric MatlabDtype.uint8 [1] 1 [20])),
     (some (ascii "C"), some (BhvValue.numeric MatlabDtype.uint8 [1] 1 [30]))]

def c2_sample_file_after : Bhv2File :=
  { stream := [7], file_size := c2_sample_bytes.length,
    at_variable_data := false }

def c2_wanted : List (List Nat) := [ascii "A", ascii "C"]

def c7_sample_bytes : List Nat :=
  encStr "int32" ++ u64le 1 ++ u64le 2 ++ [1, 0, 0, 0, 254, 255, 255, 255] ++ [9]

def c7_sample_file : Bhv2File :=
  { stream := c7_sample_bytes, file_size := c7_sample_bytes.length,
    at_variable_data := true }

/-!  C8: `bhv2_struct_get` is a first-match scan over one element's slots. -/

/-- The spec-level slot test: a named slot whose name `strcmp`-matches; an
absent name never matches. -/
def slotMatches (field : List Nat)
    (slot : Option (List Nat) × Option BhvValue) : Bool :=
  match slot.1 with
  | none => false
  | some nm => cstr nm == cstr field

def c8_sample_fields : List (Option (List Nat) × Option BhvValue) :=
  [(some (ascii "A"), some (BhvValue.numeric MatlabDtype.uint8 [1] 1 [1])),
   (some (ascii "X"), some (BhvValue.numeric MatlabDtype.uint8 [1] 1 [2])),
   (none, none),
   (some (ascii "X"), some (BhvValue.numeric MatlabDtype.uint8 [1] 1 [3]))]

/-!  Symbolic decoding of well-formed prefixes (used to reason about streams
containing a 10001-byte name without traversing it). -/

/-- Wire encoding of a dims array. -/
def encDims : List Nat → List Nat
  | [] => []
  | d :: ds => u64le d ++ encDims ds

def c3_name : List Nat := List.replicate 10001 65

def c3_field_value_bytes : List Nat :=
  u64le (ascii "double").length ++ ascii "double" ++
    u64le ([0] : List Nat).length ++ encDims [0] ++ ([] : List Nat)

def c3_struct_rest : List Nat :=
  u64le 1 ++ (u64le c3_name.length ++ c3_name ++ c3_field_value_bytes)

def c3_oversized_name_bytes : List Nat :=
  u64le (ascii "struct").length ++ ascii "struct" ++
    u64le ([1] : List Nat).length ++ encDims [1] ++ c3_struct_rest

/-- The trial-name test as the claim states it: `Trial` followed by a
nonempty, all-decimal suffix.  (Stated from the claim's words, to compare
with the code's test `is_trial_variable_name`.) -/
def spec_is_trial_name (name : List Nat) : Bool :=
  ((cstr name).take 5 == ascii "Trial") && !((cstr name).drop 5).isEmpty &&
    ((cstr name).drop 5).all isDigitByte

def c4w_value_bytes : List Nat := encStr "struct" ++ u64le 1 ++ u64le 1 ++ u64le 0

def c4w_bytes : List Nat := encStr "Trial7" ++ c4w_value_bytes

def c4w_file : MlTrialFile := open_input_file c4w_bytes

def c4w_bf0 : Bhv2File :=
  { stream := c4w_value_bytes, file_size := c4w_bytes.length,
    at_variable_data := true }

def c4w_bf1 : Bhv2File :=
  { stream := [], file_size := c4w_bytes.length, at_variable_data := false }

def c4_counter_bytes : List Nat :=
  encStr "Trial1x" ++ encStr "struct" ++ u64le 1 ++ u64le 1 ++ u64le 0

/-!  Proof machinery: running the monad, and a simulation relation between two
stream computations that consume the same bytes. -/

theorem run_pure {α : Type} (a : α) (s : List Nat) :
    (pure a : StreamM α) s = (Except.ok a, s) := rfl

theorem run_bind {α β : Type} (m : StreamM α) (f : α → StreamM β) (s : List Nat) :
    (m >>= f) s =
      match m s with
      | (Except.ok a, t) => f a t
      | (Except.error e, t) => (Except.error e, t) := rfl

theorem run_throwErr {α : Type} (e : BhvErr) (s : List Nat) :
    (throwErr e : StreamM α) s = (Except.error e, s) := rfl

theorem StreamM.bind_assoc {α β γ : Type} (m : StreamM α) (f : α → StreamM β)
    (g : β → StreamM γ) : (m >>= f) >>= g = m >>= fun a => f a >>= g := by
  funext s
  show StreamM.bind (StreamM.bind m f) g s = StreamM.bind m (fun a => StreamM.bind (f a) g) s
  cases h : m s with
  | mk r t => cases r <;> simp [StreamM.bind, h]

theorem bind_eq_ok {α β : Type} {m : StreamM α} {f : α → StreamM β}
    {s : List Nat} {b : β} {t : List Nat} :
    (m >>= f) s = (Except.ok b, t) ↔
      ∃ a s₁, m s = (Except.ok a, s₁) ∧ f a s₁ = (Except.ok b, t) := by
  rw [run_bind]
  cases h : m s with
  | mk r u =>
    cases r with
    | ok a =>
      simp only []
      constructor
      · intro hfa
        exact ⟨a, u, rfl, hfa⟩
      · rintro ⟨a', s', hae, hfa⟩
        cases hae
        exact hfa
    | error e => simp

theorem simMap_pure {α β : Type} (a : α) (g : α → β) :
    SimMap (pure a) (pure (g a)) g := by
  intro s x t h
  rw [run_pure] at h
  cases h
  rw [run_pure]

theorem simMap_throw {α β : Type} (e : BhvErr) (k : StreamM β) (g : α → β) :
    SimMap (throwErr e) k g := by
  intro s x t h
  rw [run_throwErr] at h
  cases h

/-- Shared prefix: both sides run the same first computation. -/
theorem simMap_seq_same {α β β' : Type} {m : StreamM α} {f : α → StreamM β}
    {f' : α → StreamM β'} {g : β → β'} (hf : ∀ a, SimMap (f a) (f' a) g) :
    SimMap (m >>= f) (m >>= f') g := by
  intro s b t h
  rcases bind_eq_ok.1 h with ⟨a, s₁, hm, hc⟩
  rw [run_bind, hm]
  exact hf a s₁ b t hc

/-- Differing prefixes of equal consumption (for example a length-checked
`read_string` versus a bare `skip_bytes`), followed by continuations that do
not depend on the skipped result. -/
theorem simMap_step {α α' β β' : Type} {m : StreamM α} {m' : StreamM α'}
    (hm : ∀ s a t, m s = (Except.ok a, t) → ∃ a', m' s = (Except.ok a', t))
    {f : α → StreamM β} {f' : α' → StreamM β'} {g : β → β'}
    (hf : ∀ a a', SimMap (f a) (f' a') g) :
    SimMap (m >>= f) (m' >>= f') g := by
  intro s b t h
  rcases bind_eq_ok.1 h with ⟨a, s₁, hmok, hc⟩
  rcases hm s a s₁ hmok with ⟨a', hm'⟩
  rw [run_bind, hm']
  exact hf a a' s₁ b t hc

/-- A check on the producing side only: if the check fires the producer
throws, so the simulation is vacuous there. -/
theorem simMap_ite_left {α β : Type} {c : Prop} [Decidable c] {e : BhvErr}
    {m : StreamM α} {k : StreamM β} {g : α → β} (h : ¬c → SimMap m k g) :
    SimMap (if c then throwErr e else m) k g := by
  by_cases hc : c
  · simp only [hc, if_true]
    exact simMap_throw e k g
  · simp only [hc, if_false]
    exact h hc

/-!  Behavior of the primitives. -/

theorem read_uint64_ok {s : List Nat} {n : Nat} {t : List Nat}
    (h : read_uint64_posix s = (Except.ok n, t)) :
    8 ≤ s.length ∧ n = leNat (s.take 8) ∧ t = s.drop 8 := by
  by_cases hl : 8 ≤ s.length
  · rw [read_uint64_posix, if_pos hl] at h
    cases h
    exact ⟨hl, rfl, rfl⟩
  · rw [read_uint64_posix, if_neg hl] at h
    cases h

theorem read_string_ok {n : Nat} {s : List Nat} {a : List Nat} {t : List Nat}
    (h : read_string_posix n s = (Except.ok a, t)) :
    n ≤ s.length ∧ a = s.take n ∧ t = s.drop n := by
  by_cases hl : n ≤ s.length
  · rw [read_string_posix, if_pos hl] at h
    cases h
    exact ⟨hl, rfl, rfl⟩
  · rw [read_string_posix, if_neg hl] at h
    cases h

theorem read_bytes_ok {n : Nat} {s : List Nat} {a : List Nat} {t : List Nat}
    (h : read_bytes_posix n s = (Except.ok a, t)) :
    n ≤ s.length ∧ a = s.take n ∧ t = s.drop n := by
  by_cases hl : n ≤ s.length
  · rw [read_bytes_posix, if_pos hl] at h
    cases h
    exact ⟨hl, rfl, rfl⟩
  · rw [read_bytes_posix, if_neg hl] at h
    cases h

theorem run_skip_bytes (n : Nat) (s : List Nat) :
    skip_bytes_posix n s = (Except.ok (), s.drop n) := rfl

/-- `read_string` and `skip_bytes` of the same length consume the same bytes
whenever the former succeeds. -/
theorem skip_covers_read_string (n : Nat) :
    ∀ (s : List Nat) (a : List Nat) (t : List Nat),
      read_string_posix n s = (Except.ok a, t) →
      ∃ u : Unit, skip_bytes_posix n s = (Except.ok u, t) := by
  intro s a t h
  rcases read_string_ok h with ⟨-, -, rfl⟩
  exact ⟨(), rfl⟩

theorem skip_covers_read_bytes (n : Nat) :
    ∀ (s : List Nat) (a : List Nat) (t : List Nat),
      read_bytes_posix n s = (Except.ok a, t) →
      ∃ u : Unit, skip_bytes_posix n s = (Except.ok u, t) := by
  intro s a t h
  rcases read_bytes_ok h with ⟨-, -, rfl⟩
  exact ⟨(), rfl⟩

theorem computeTotal_lt (dims : List Nat) : computeTotal dims < U64MOD := by
  have h : ∀ (l : List Nat) (acc : Nat), acc < U64MOD →
      l.foldl (fun a d => a * d % U64MOD) acc < U64MOD := by
    intro l
    induction l with
    | nil => intro acc hacc; simpa using hacc
    | cons d rest ih =>
      intro acc hacc
      exact ih _ (Nat.mod_lt _ (by norm_num [U64MOD]))
  exact h dims 1 (by norm_num [U64MOD])

/-- Post-composing the successful result with a pure function does not change
what a unit-valued simulation says. -/
theorem simMap_map_unit {α α' : Type} {m : StreamM α} {k : StreamM Unit}
    (h : SimMap m k (fun _ => ())) (f : α → α') :
    SimMap (m >>= fun x => pure (f x)) k (fun _ => ()) := by
  intro s a t hh
  rcases bind_eq_ok.1 hh with ⟨x, s₁, hm, hp⟩
  rw [run_pure] at hp
  cases hp
  exact h s x t hm

/-!  C1's core simulation: mode 2 consumes exactly the bytes mode 1 consumes. -/

theorem skip_fields_sim {readVal : StreamM BhvValue} {skipVal : StreamM Unit}
    (h : SimMap readVal skipVal (fun _ => ())) :
    ∀ count, SimMap (read_struct_fields readVal count)
      (skip_named_values skipVal count) (fun _ => ()) := by
  intro count
  induction count with
  | zero => exact simMap_pure [] (fun _ => ())
  | succ count ih =>
    show SimMap
      (read_uint64_posix >>= fun name_len =>
        if name_len > BHV2_MAX_NAME_LENGTH then throwErr BhvErr.formatError
        else
          read_string_posix name_len >>= fun name =>
          readVal >>= fun v =>
          read_struct_fields readVal count >>= fun rest =>
          pure ((some name, some v) :: rest))
      (read_uint64_posix >>= fun name_len =>
        skip_bytes_posix name_len >>= fun _ =>
        skipVal >>= fun _ =>
        skip_named_values skipVal count) _
    refine simMap_seq_same fun name_len => ?_
    refine simMap_ite_left fun _ => ?_
    refine simMap_step (skip_covers_read_string name_len) fun name _ => ?_
    refine simMap_step (fun s a t hm => ⟨(), h s a t hm⟩) fun v _ => ?_
    exact simMap_map_unit ih _

theorem cell_elems_sim {readData : MatlabDtype → List Nat → StreamM BhvValue}
    {skipData : MatlabDtype → List Nat → StreamM Unit}
    (h : ∀ d ds, SimMap (readData d ds) (skipData d ds) (fun _ => ())) :
    ∀ count, SimMap (read_cell_elems readData count)
      (skip_named_values
        (do
          let (d, ds) ← read_value_header
          skipData d ds)
        count)
      (fun _ => ()) := by
  intro count
  induction count with
  | zero => exact simMap_pure [] (fun _ => ())
  | succ count ih =>
    show SimMap
      (read_uint64_posix >>= fun name_len =>
        skip_bytes_posix name_len >>= fun _ =>
        read_value_header >>= fun p =>
        (match p with
         | (d, ds) =>
           readData d ds >>= fun v =>
           read_cell_elems readData count >>= fun rest =>
           pure (v :: rest)))
      (read_uint64_posix >>= fun name_len =>
        skip_bytes_posix name_len >>= fun _ =>
        (read_value_header >>= fun p =>
          (match p with
           | (d, ds) => skipData d ds)) >>= fun _ =>
        skip_named_values
          (read_value_header >>= fun p =>
            (match p with
             | (d, ds) => skipData d ds))
          count) _
    refine simMap_seq_same fun name_len => ?_
    refine simMap_seq_same fun _ => ?_
    rw [StreamM.bind_assoc]
    refine simMap_seq_same fun p => ?_
    obtain ⟨d, ds⟩ := p
    show SimMap
      (readData d ds >>= fun v =>
        read_cell_elems readData count >>= fun rest => pure (v :: rest))
      (skipData d ds >>= fun _ =>
        skip_named_values
          (read_value_header >>= fun p =>
            (match p with
             | (d, ds) => skipData d ds))
          count) _
    refine simMap_step (fun s a t hm => ⟨(), h d ds s a t hm⟩) fun v _ => ?_
    exact simMap_map_unit ih _

/-- A numeric (non-struct, non-cell, nonzero-width) payload: the full read of
`total * width` bytes and the skip's forward seek consume the same bytes. -/
theorem skip_numeric_sim (fuel : Nat) (d : MatlabDtype) (dims : List Nat)
    (hs : d ≠ MatlabDtype.struct) (hc : d ≠ MatlabDtype.cell)
    (hz : matlab_dtype_size d ≠ 0) :
    SimMap (read_numeric_array_posix d dims)
      (skip_array_data_posix (fuel + 1) d dims) (fun _ => ()) := by
  intro s a t h
  simp only [read_numeric_array_posix] at h
  rcases bind_eq_ok.1 h with ⟨data, s₁, hrd, hif⟩
  have ht : s₁ = t := by
    by_cases hn : is_numeric_dtype d = true
    · rw [if_pos hn, run_pure] at hif
      cases hif
      rfl
    · rw [if_neg hn, run_throwErr] at hif
      cases hif
  subst ht
  rcases read_bytes_ok hrd with ⟨-, -, rfl⟩
  simp only [skip_array_data_posix]
  rw [if_neg hs, if_neg hc, if_neg hz]
  rfl

theorem skip_of_read_array : ∀ (fuel : Nat) (dtype : MatlabDtype) (dims : List Nat),
    SimMap (read_array_data_posix fuel dtype dims)
      (skip_array_data_posix fuel dtype dims) (fun _ => ()) := by
  intro fuel
  induction fuel with
  | zero =>
    intro dtype dims s a t h
    rw [read_array_data_posix, run_throwErr] at h
    cases h
  | succ fuel ih =>
    intro dtype dims
    cases dtype with
    | char =>
      intro s a t h
      rw [show read_array_data_posix (fuel + 1) MatlabDtype.char dims =
            read_char_array_posix dims from rfl] at h
      simp only [read_char_array_posix] at h
      rcases bind_eq_ok.1 h with ⟨data, s₁, hrd, hp⟩
      rw [run_pure] at hp
      cases hp
      rcases read_bytes_ok hrd with ⟨-, -, rfl⟩
      simp only [skip_array_data_posix]
      rw [if_neg (by decide : ¬(MatlabDtype.char = MatlabDtype.struct)),
          if_neg (by decide : ¬(MatlabDtype.char = MatlabDtype.cell)),
          if_neg (by decide : ¬(matlab_dtype_size MatlabDtype.char = 0))]
      have heq : computeTotal dims * matlab_dtype_size MatlabDtype.char % U64MOD =
          computeTotal dims := by
        rw [show matlab_dtype_size MatlabDtype.char = 1 from rfl, Nat.mul_one]
        exact Nat.mod_eq_of_lt (computeTotal_lt dims)
      rw [heq]
      rfl
    | struct =>
      show SimMap
        (read_struct_array_core
          (read_value_header >>= fun p =>
            (match p with
             | (d, ds) => read_array_data_posix fuel d ds))
          dims)
        (read_uint64_posix >>= fun n_fields =>
          skip_named_values
            (read_value_header >>= fun p =>
              (match p with
               | (d, ds) => skip_array_data_posix fuel d ds))
            (computeTotal dims * n_fields)) _
      rw [read_struct_array_core]
      refine simMap_seq_same fun n_fields => ?_
      refine simMap_map_unit ?_ _
      refine skip_fields_sim ?_ _
      refine simMap_seq_same fun p => ?_
      obtain ⟨d, ds⟩ := p
      exact ih d ds
    | cell =>
      show SimMap
        (read_cell_array_core (fun d ds => read_array_data_posix fuel d ds) dims)
        (skip_named_values
          (read_value_header >>= fun p =>
            (match p with
             | (d, ds) => skip_array_data_posix fuel d ds))
          (computeTotal dims)) _
      rw [read_cell_array_core]
      refine simMap_map_unit ?_ _
      exact cell_elems_sim (fun d ds => ih d ds) _
    | unknown =>
      intro s a t h
      rw [show read_array_data_posix (fuel + 1) MatlabDtype.unknown dims =
            throwErr BhvErr.formatError from rfl, run_throwErr] at h
      cases h
    | double => exact skip_numeric_sim fuel _ dims (by decide) (by decide) (by decide)
    | single => exact skip_numeric_sim fuel _ dims (by decide) (by decide) (by decide)
    | uint8 => exact skip_numeric_sim fuel _ dims (by decide) (by decide) (by decide)
    | uint16 => exact skip_numeric_sim fuel _ dims (by decide) (by decide) (by decide)
    | uint32 => exact skip_numeric_sim fuel _ dims (by decide) (by decide) (by decide)
    | uint64 => exact skip_numeric_sim fuel _ dims (by decide) (by decide) (by decide)
    | int8 => exact skip_numeric_sim fuel _ dims (by decide) (by decide) (by decide)
    | int16 => exact skip_numeric_sim fuel _ dims (by decide) (by decide) (by decide)
    | int32 => exact skip_numeric_sim fuel _ dims (by decide) (by decide) (by decide)
    | int64 => exact skip_numeric_sim fuel _ dims (by decide) (by decide) (by decide)
    | logical => exact skip_numeric_sim fuel _ dims (by decide) (by decide) (by decide)

/-- Mode 2 simulates mode 1 from the header onwards. -/
theorem skip_of_read_value (fuel : Nat) :
    SimMap (bhv2_read_value_posix fuel) (bhv2_skip_value_posix fuel)
      (fun _ => ()) := by
  show SimMap
    (read_value_header >>= fun p =>
      (match p with
       | (d, ds) => read_array_data_posix fuel d ds))
    (read_value_header >>= fun p =>
      (match p with
       | (d, ds) => skip_array_data_posix fuel d ds)) _
  refine simMap_seq_same fun p => ?_
  obtain ⟨d, ds⟩ := p
  exact skip_of_read_array fuel d ds

/-!  Further simulation combinators: identical results through possibly
different computations (used for fuel monotonicity and mode 3 versus mode 1).
-/

/-- Both sides produce the same value and consume the same bytes in the first
step, then continue in simulation. -/
theorem simMap_step_same {α β β' : Type} {m m' : StreamM α}
    (hm : ∀ s a t, m s = (Except.ok a, t) → m' s = (Except.ok a, t))
    {f : α → StreamM β} {f' : α → StreamM β'} {g : β → β'}
    (hf : ∀ a, SimMap (f a) (f' a) g) :
    SimMap (m >>= f) (m' >>= f') g := by
  intro s b t h
  rcases bind_eq_ok.1 h with ⟨a, s₁, hmok, hc⟩
  rw [run_bind, hm s a s₁ hmok]
  exact hf a s₁ b t hc

/-- Final pure steps on both sides, commuting with the simulation map. -/
theorem simMap_map₂ {α β α' β' : Type} {m : StreamM α} {k : StreamM α'}
    {g : α → α'} (h : SimMap m k g) (f : α → β) (f' : α' → β') (g' : β → β')
    (hc : ∀ x, f' (g x) = g' (f x)) :
    SimMap (m >>= fun x => pure (f x)) (k >>= fun y => pure (f' y)) g' := by
  intro s b t hh
  rcases bind_eq_ok.1 hh with ⟨x, s₁, hm, hp⟩
  rw [run_pure] at hp
  obtain ⟨rfl, rfl⟩ : b = f x ∧ t = s₁ := by
    cases hp
    exact ⟨rfl, rfl⟩
  rw [run_bind, h s x t hm]
  show (Except.ok (f' (g x)), t) = (Except.ok (g' (f x)), t)
  rw [hc]

/-!  Fuel monotonicity: a successful decode stays successful, with the same
result and consumption, at any larger fuel. -/

theorem read_array_mono :
    ∀ {fuel fuel' : Nat}, fuel ≤ fuel' → ∀ (dtype : MatlabDtype) (dims : List Nat),
      SimMap (read_array_data_posix fuel dtype dims)
        (read_array_data_posix fuel' dtype dims) id := by
  intro fuel
  induction fuel with
  | zero =>
    intro fuel' h dtype dims s a t hh
    rw [read_array_data_posix, run_throwErr] at hh
    cases hh
  | succ fuel ih =>
    intro fuel' h dtype dims
    obtain ⟨fuel'', rfl⟩ : ∃ k, fuel' = k + 1 :=
      ⟨fuel' - 1, by omega⟩
    have hle : fuel ≤ fuel'' := by omega
    cases dtype with
    | struct =>
      show SimMap
        (read_struct_array_core
          (read_value_header >>= fun p =>
            (match p with
             | (d, ds) => read_array_data_posix fuel d ds)) dims)
        (read_struct_array_core
          (read_value_header >>= fun p =>
            (match p with
             | (d, ds) => read_array_data_posix fuel'' d ds)) dims) _
      simp only [read_struct_array_core]
      refine simMap_seq_same fun n_fields => ?_
      have hv : SimMap
          (read_value_header >>= fun p =>
            (match p with
             | (d, ds) => read_array_data_posix fuel d ds))
          (read_value_header >>= fun p =>
            (match p with
             | (d, ds) => read_array_data_posix fuel'' d ds)) id := by
        refine simMap_seq_same fun p => ?_
        obtain ⟨d, ds⟩ := p
        exact ih hle d ds
      have hfields : ∀ count, SimMap
          (read_struct_fields
            (read_value_header >>= fun p =>
              (match p with
               | (d, ds) => read_array_data_posix fuel d ds)) count)
          (read_struct_fields
            (read_value_header >>= fun p =>
              (match p with
               | (d, ds) => read_array_data_posix fuel'' d ds)) count) id := by
        intro count
        induction count with
        | zero => exact simMap_pure [] id
        | succ count ihc =>
          show SimMap
            (read_uint64_posix >>= fun name_len =>
              if name_len > BHV2_MAX_NAME_LENGTH then throwErr BhvErr.formatError
              else
                read_string_posix name_len >>= fun name =>
                (read_value_header >>= fun p =>
                  (match p with
                   | (d, ds) => read_array_data_posix fuel d ds)) >>= fun v =>
                read_struct_fields _ count >>= fun rest =>
                pure ((some name, some v) :: rest))
            (read_uint64_posix >>= fun name_len =>
              if name_len > BHV2_MAX_NAME_LENGTH then throwErr BhvErr.formatError
              else
                read_string_posix name_len >>= fun name =>
                (read_value_header >>= fun p =>
                  (match p with
                   | (d, ds) => read_array_data_posix fuel'' d ds)) >>= fun v =>
                read_struct_fields _ count >>= fun rest =>
                pure ((some name, some v) :: rest)) _
          refine simMap_seq_same fun name_len => ?_
          refine simMap_ite_left fun hlen => ?_
          rw [if_neg hlen]
          refine simMap_seq_same fun name => ?_
          refine simMap_step_same (fun s a t hh => hv s a t hh) fun v => ?_
          exact simMap_map₂ ihc _ _ _ (fun x => rfl)
      exact simMap_map₂ (hfields _) _ _ _ (fun x => rfl)
    | cell =>
      show SimMap
        (read_cell_array_core (fun d ds => read_array_data_posix fuel d ds) dims)
        (read_cell_array_core (fun d ds => read_array_data_posix fuel'' d ds) dims) _
      simp only [read_cell_array_core]
      have hcells : ∀ count, SimMap
          (read_cell_elems (fun d ds => read_array_data_posix fuel d ds) count)
          (read_cell_elems (fun d ds => read_array_data_posix fuel'' d ds) count) id := by
        intro count
        induction count with
        | zero => exact simMap_pure [] id
        | succ count ihc =>
          show SimMap
            (read_uint64_posix >>= fun name_len =>
              skip_bytes_posix name_len >>= fun _ =>
              read_value_header >>= fun p =>
              (match p with
               | (d, ds) =>
                 read_array_data_posix fuel d ds >>= fun v =>
                 read_cell_elems _ count >>= fun rest =>
                 pure (v :: rest)))
            (read_uint64_posix >>= fun name_len =>
              skip_bytes_posix name_len >>= fun _ =>
              read_value_header >>= fun p =>
              (match p with
               | (d, ds) =>
                 read_array_data_posix fuel'' d ds >>= fun v =>
                 read_cell_elems _ count >>= fun rest =>
                 pure (v :: rest))) _
          refine simMap_seq_same fun name_len => ?_
          refine simMap_seq_same fun _ => ?_
          refine simMap_seq_same fun p => ?_
          obtain ⟨d, ds⟩ := p
          refine simMap_step_same (fun s a t hh => ih hle d ds s a t hh) fun v => ?_
          exact simMap_map₂ ihc _ _ _ (fun x => rfl)
      exact simMap_map₂ (hcells _) _ _ _ (fun x => rfl)
    | char =>
      intro s a t hh
      exact hh
    | unknown =>
      intro s a t hh
      rw [show read_array_data_posix (fuel + 1) MatlabDtype.unknown dims =
            throwErr BhvErr.formatError from rfl, run_throwErr] at hh
      cases hh
    | double => intro s a t hh; exact hh
    | single => intro s a t hh; exact hh
    | uint8 => intro s a t hh; exact hh
    | uint16 => intro s a t hh; exact hh
    | uint32 => intro s a t hh; exact hh
    | uint64 => intro s a t hh; exact hh
    | int8 => intro s a t hh; exact hh
    | int16 => intro s a t hh; exact hh
    | int32 => intro s a t hh; exact hh
    | int64 => intro s a t hh; exact hh
    | logical => intro s a t hh; exact hh

theorem read_value_mono {fuel fuel' : Nat} (h : fuel ≤ fuel') :
    SimMap (bhv2_read_value_posix fuel) (bhv2_read_value_posix fuel') id := by
  show SimMap
    (read_value_header >>= fun p =>
      (match p with
       | (d, ds) => read_array_data_posix fuel d ds))
    (read_value_header >>= fun p =>
      (match p with
       | (d, ds) => read_array_data_posix fuel' d ds)) _
  refine simMap_seq_same fun p => ?_
  obtain ⟨d, ds⟩ := p
  exact read_array_mono h d ds

theorem selective_fields_of_full {fuelF fuelS : Nat} (hle : fuelF ≤ fuelS)
    (wanted : Option (List (List Nat))) :
    ∀ count, SimMap (read_struct_fields (bhv2_read_value_posix fuelF) count)
      (read_selective_fields fuelS wanted count)
      (List.map (selectiveMaskSlot wanted)) := by
  intro count
  induction count with
  | zero => exact simMap_pure [] (List.map (selectiveMaskSlot wanted))
  | succ count ih =>
    show SimMap
      (read_uint64_posix >>= fun name_len =>
        if name_len > BHV2_MAX_NAME_LENGTH then throwErr BhvErr.formatError
        else
          read_string_posix name_len >>= fun name =>
          bhv2_read_value_posix fuelF >>= fun v =>
          read_struct_fields (bhv2_read_value_posix fuelF) count >>= fun rest =>
          pure ((some name, some v) :: rest))
      (read_uint64_posix >>= fun name_len =>
        if name_len > BHV2_MAX_NAME_LENGTH then throwErr BhvErr.formatError
        else
          read_string_posix name_len >>= fun field_name =>
          if is_wanted_field wanted field_name then
            bhv2_read_value_posix fuelS >>= fun v =>
            read_selective_fields fuelS wanted count >>= fun rest =>
            pure ((some field_name, some v) :: rest)
          else
            bhv2_skip_value_posix fuelS >>= fun _ =>
            read_selective_fields fuelS wanted count >>= fun rest =>
            pure ((none, none) :: rest)) _
    refine simMap_seq_same fun name_len => ?_
    refine simMap_ite_left fun hlen => ?_
    rw [if_neg hlen]
    refine simMap_seq_same fun name => ?_
    by_cases hw : is_wanted_field wanted name = true
    · rw [if_pos hw]
      refine simMap_step_same (fun s a t hh => read_value_mono hle s a t hh) fun v => ?_
      refine simMap_map₂ ih _ _ _ fun rest => ?_
      show (some name, some v) :: rest.map (selectiveMaskSlot wanted) =
        selectiveMaskSlot wanted (some name, some v) :: rest.map (selectiveMaskSlot wanted)
      rw [show selectiveMaskSlot wanted (some name, some v) = (some name, some v) by
        simp [selectiveMaskSlot, hw]]
    · rw [if_neg hw]
      refine simMap_step
        (fun s a t hh => ⟨(), skip_of_read_value fuelS s a t (read_value_mono hle s a t hh)⟩)
        fun v u => ?_
      refine simMap_map₂ ih _ _ _ fun rest => ?_
      show (none, none) :: rest.map (selectiveMaskSlot wanted) =
        selectiveMaskSlot wanted (some name, some v) :: rest.map (selectiveMaskSlot wanted)
      rw [show selectiveMaskSlot wanted (some name, some v) = (none, none) by
        simp only [selectiveMaskSlot, Bool.not_eq_true] at hw ⊢
        rw [hw]
        rfl]

/-!  Structural inversions of the readers. -/

theorem read_numeric_ok {d : MatlabDtype} {dims : List Nat} {s : List Nat}
    {v : BhvValue} {t : List Nat}
    (h : read_numeric_array_posix d dims s = (Except.ok v, t)) :
    is_numeric_dtype d = true ∧
      computeTotal dims * matlab_dtype_size d % U64MOD ≤ s.length ∧
      v = BhvValue.numeric d dims (computeTotal dims)
        (s.take (computeTotal dims * matlab_dtype_size d % U64MOD)) ∧
      t = s.drop (computeTotal dims * matlab_dtype_size d % U64MOD) := by
  simp only [read_numeric_array_posix] at h
  rcases bind_eq_ok.1 h with ⟨data, s₁, hrd, hif⟩
  rcases read_bytes_ok hrd with ⟨hle, rfl, rfl⟩
  by_cases hn : is_numeric_dtype d = true
  · rw [if_pos hn, run_pure] at hif
    cases hif
    exact ⟨hn, hle, rfl, rfl⟩
  · rw [if_neg hn, run_throwErr] at hif
    cases hif

theorem read_char_ok {dims : List Nat} {s : List Nat} {v : BhvValue}
    {t : List Nat} (h : read_char_array_posix dims s = (Except.ok v, t)) :
    computeTotal dims ≤ s.length ∧
      v = BhvValue.charArr dims (computeTotal dims) (s.take (computeTotal dims)) ∧
      t = s.drop (computeTotal dims) := by
  simp only [read_char_array_posix] at h
  rcases bind_eq_ok.1 h with ⟨data, s₁, hrd, hp⟩
  rcases read_bytes_ok hrd with ⟨hle, rfl, rfl⟩
  rw [run_pure] at hp
  cases hp
  exact ⟨hle, rfl, rfl⟩

theorem read_struct_core_ok {readVal : StreamM BhvValue} {dims : List Nat}
    {s : List Nat} {v : BhvValue} {t : List Nat}
    (h : read_struct_array_core readVal dims s = (Except.ok v, t)) :
    ∃ n_fields fields s₁,
      read_uint64_posix s = (Except.ok n_fields, s₁) ∧
      read_struct_fields readVal (computeTotal dims * n_fields) s₁ =
        (Except.ok fields, t) ∧
      v = BhvValue.structArr dims (computeTotal dims) n_fields fields := by
  simp only [read_struct_array_core] at h
  rcases bind_eq_ok.1 h with ⟨n_fields, s₁, h1, h2⟩
  rcases bind_eq_ok.1 h2 with ⟨fields, s₂, h3, h4⟩
  rw [run_pure] at h4
  cases h4
  exact ⟨n_fields, fields, s₁, h1, h3, rfl⟩

theorem read_cell_core_ok {readData : MatlabDtype → List Nat → StreamM BhvValue}
    {dims : List Nat} {s : List Nat} {v : BhvValue} {t : List Nat}
    (h : read_cell_array_core readData dims s = (Except.ok v, t)) :
    ∃ cells,
      read_cell_elems readData (computeTotal dims) s = (Except.ok cells, t) ∧
      v = BhvValue.cellArr dims (computeTotal dims) cells := by
  simp only [read_cell_array_core] at h
  rcases bind_eq_ok.1 h with ⟨cells, s₁, h1, h2⟩
  rw [run_pure] at h2
  cases h2
  exact ⟨cells, h1, rfl⟩

theorem read_value_ok {fuel : Nat} {s : List Nat} {v : BhvValue} {t : List Nat}
    (h : bhv2_read_value_posix fuel s = (Except.ok v, t)) :
    ∃ d dims s₁, read_value_header s = (Except.ok (d, dims), s₁) ∧
      read_array_data_posix fuel d dims s₁ = (Except.ok v, t) := by
  rcases bind_eq_ok.1 h with ⟨p, s₁, h1, h2⟩
  obtain ⟨d, dims⟩ := p
  exact ⟨d, dims, s₁, h1, h2⟩

/-- The shape of a successful payload read: the result carries the dispatched
dtype, the dims it was given, and the (wrapping) product of those dims. -/
theorem read_array_shape {fuel : Nat} {d : MatlabDtype} {dims : List Nat}
    {s : List Nat} {v : BhvValue} {t : List Nat}
    (h : read_array_data_posix fuel d dims s = (Except.ok v, t)) :
    v.dtype = d ∧ v.dims = dims ∧ v.total = computeTotal dims := by
  cases fuel with
  | zero =>
    rw [read_array_data_posix, run_throwErr] at h
    cases h
  | succ fuel =>
    cases d with
    | char =>
      rcases read_char_ok h with ⟨-, rfl, -⟩
      exact ⟨rfl, rfl, rfl⟩
    | struct =>
      rcases read_struct_core_ok h with ⟨nf, fields, s₁, -, -, rfl⟩
      exact ⟨rfl, rfl, rfl⟩
    | cell =>
      rcases read_cell_core_ok h with ⟨cells, -, rfl⟩
      exact ⟨rfl, rfl, rfl⟩
    | unknown =>
      rw [show read_array_data_posix (fuel + 1) MatlabDtype.unknown dims =
            throwErr BhvErr.formatError from rfl, run_throwErr] at h
      cases h
    | double => rcases read_numeric_ok h with ⟨-, -, rfl, -⟩; exact ⟨rfl, rfl, rfl⟩
    | single => rcases read_numeric_ok h with ⟨-, -, rfl, -⟩; exact ⟨rfl, rfl, rfl⟩
    | uint8 => rcases read_numeric_ok h with ⟨-, -, rfl, -⟩; exact ⟨rfl, rfl, rfl⟩
    | uint16 => rcases read_numeric_ok h with ⟨-, -, rfl, -⟩; exact ⟨rfl, rfl, rfl⟩
    | uint32 => rcases read_numeric_ok h with ⟨-, -, rfl, -⟩; exact ⟨rfl, rfl, rfl⟩
    | uint64 => rcases read_numeric_ok h with ⟨-, -, rfl, -⟩; exact ⟨rfl, rfl, rfl⟩
    | int8 => rcases read_numeric_ok h with ⟨-, -, rfl, -⟩; exact ⟨rfl, rfl, rfl⟩
    | int16 => rcases read_numeric_ok h with ⟨-, -, rfl, -⟩; exact ⟨rfl, rfl, rfl⟩
    | int32 => rcases read_numeric_ok h with ⟨-, -, rfl, -⟩; exact ⟨rfl, rfl, rfl⟩
    | int64 => rcases read_numeric_ok h with ⟨-, -, rfl, -⟩; exact ⟨rfl, rfl, rfl⟩
    | logical => rcases read_numeric_ok h with ⟨-, -, rfl, -⟩; exact ⟨rfl, rfl, rfl⟩

theorem read_struct_fields_length {readVal : StreamM BhvValue} :
    ∀ {count : Nat} {s : List Nat} {fs} {t : List Nat},
      read_struct_fields readVal count s = (Except.ok fs, t) → fs.length = count := by
  intro count
  induction count with
  | zero =>
    intro s fs t h
    rw [show read_struct_fields readVal 0 = pure [] from rfl, run_pure] at h
    cases h
    rfl
  | succ count ih =>
    intro s fs t h
    rcases bind_eq_ok.1 h with ⟨name_len, s₁, -, h⟩
    by_cases hlen : name_len > BHV2_MAX_NAME_LENGTH
    · rw [if_pos hlen, run_throwErr] at h
      cases h
    · rw [if_neg hlen] at h
      rcases bind_eq_ok.1 h with ⟨name, s₂, -, h⟩
      rcases bind_eq_ok.1 h with ⟨v, s₃, -, h⟩
      rcases bind_eq_ok.1 h with ⟨rest, s₄, hrest, h⟩
      rw [run_pure] at h
      cases h
      simp [ih hrest]

/-!  File-level decompositions. -/

theorem variable_data_ok {fuel : Nat} {f : Bhv2File} {v : BhvValue}
    {f' : Bhv2File} (h : bhv2_read_variable_data fuel f = (Except.ok v, f')) :
    ∃ t, f.at_variable_data = true ∧
      bhv2_read_value_posix fuel f.stream = (Except.ok v, t) ∧
      f' = { f with stream := t, at_variable_data := false } := by
  cases hf : f.at_variable_data with
  | false =>
    rw [bhv2_read_variable_data, hf] at h
    simp at h
  | true =>
    rw [bhv2_read_variable_data, hf] at h
    simp only [Bool.not_true, Bool.false_eq_true, if_false] at h
    cases hrs : bhv2_read_value_posix fuel f.stream with
    | mk r t =>
      rw [hrs] at h
      cases r with
      | ok w =>
        simp only [Prod.mk.injEq, Except.ok.injEq] at h
        obtain ⟨rfl, rfl⟩ := h
        exact ⟨t, rfl, rfl, rfl⟩
      | error e => simp at h

theorem selective_read_general {fuel : Nat} {f : Bhv2File}
    (wanted : Option (List (List Nat))) {v : BhvValue} {f' : Bhv2File}
    (h : bhv2_read_variable_data fuel f = (Except.ok v, f'))
    (hs : v.dtype = MatlabDtype.struct) :
    bhv2_read_variable_data_selective fuel f wanted =
      (Except.ok (selectiveMask wanted v), f') := by
  rcases variable_data_ok h with ⟨t, hflag, hread, rfl⟩
  rcases read_value_ok hread with ⟨d, dims, s₁, hhdr, harr⟩
  have hd : d = MatlabDtype.struct := ((read_array_shape harr).1).symm.trans hs
  subst hd
  cases fuel with
  | zero =>
    rw [read_array_data_posix, run_throwErr] at harr
    cases harr
  | succ fuelF =>
    have harr' : read_struct_array_core (bhv2_read_value_posix fuelF) dims s₁ =
        (Except.ok v, t) := harr
    rcases read_struct_core_ok harr' with ⟨nf, fields, s₂, hnf, hfields, rfl⟩
    have hsel : read_struct_selective_posix (fuelF + 1) dims wanted s₁ =
        (Except.ok
          (BhvValue.structArr dims (computeTotal dims) nf
            (fields.map (selectiveMaskSlot wanted))), t) := by
      simp only [read_struct_selective_posix]
      rw [run_bind, hnf]
      show (read_selective_fields (fuelF + 1) wanted (computeTotal dims * nf) >>=
          fun fs => pure (BhvValue.structArr dims (computeTotal dims) nf fs)) s₂ = _
      rw [run_bind,
        selective_fields_of_full (Nat.le_succ fuelF) wanted _ s₂ fields t hfields]
      rfl
    rw [bhv2_read_variable_data_selective, hflag]
    simp only [Bool.not_true, Bool.false_eq_true, if_false]
    rw [hhdr]
    show (match read_struct_selective_posix (fuelF + 1) dims wanted s₁ with
      | (r, s'') => (r, { f with stream := s'', at_variable_data := false })) = _
    rw [hsel]
    rfl

theorem selective_nonstruct_general {fuel : Nat} {f : Bhv2File}
    {wanted : Option (List (List Nat))} {v : BhvValue} {f' : Bhv2File}
    (h : bhv2_read_variable_data fuel f = (Except.ok v, f'))
    (hs : v.dtype ≠ MatlabDtype.struct) :
    bhv2_read_variable_data_selective fuel f wanted = (Except.ok v, f') := by
  rcases variable_data_ok h with ⟨t, hflag, hread, rfl⟩
  rcases read_value_ok hread with ⟨d, dims, s₁, hhdr, harr⟩
  have hd : d ≠ MatlabDtype.struct := fun hdd =>
    hs (((read_array_shape harr).1).trans hdd)
  rw [bhv2_read_variable_data_selective, hflag]
  simp only [Bool.not_true, Bool.false_eq_true, if_false]
  rw [hhdr]
  show (match (if d = MatlabDtype.struct then
          read_struct_selective_posix fuel dims wanted s₁
        else read_array_data_posix fuel d dims s₁) with
    | (r, s'') => (r, { f with stream := s'', at_variable_data := false })) = _
  rw [if_neg hd, harr]

theorem map_maskSlot_none (fields : List (Option (List Nat) × Option BhvValue)) :
    fields.map (selectiveMaskSlot none) =
      List.replicate fields.length (none, none) := by
  induction fields with
  | nil => rfl
  | cons slot rest ih =>
    have hslot : selectiveMaskSlot none slot = (none, none) := by
      rcases slot with ⟨n, v⟩
      cases n <;> rfl
    simp [List.replicate, hslot, ih]

theorem run_bind_ok {α β : Type} {m : StreamM α} {f : α → StreamM β}
    {s : List Nat} {a : α} {t : List Nat} (h : m s = (Except.ok a, t)) :
    (m >>= f) s = f a t := by
  rw [run_bind, h]

theorem run_bind_err {α β : Type} {m : StreamM α} {f : α → StreamM β}
    {s : List Nat} {e : BhvErr} {t : List Nat} (h : m s = (Except.error e, t)) :
    (m >>= f) s = (Except.error e, t) := by
  rw [run_bind, h]

/-- An oversized tag length stops the shared value header with a
`FormatError` right after the 8-byte length field. -/
theorem header_oversized_tag {s : List Nat} (h8 : 8 ≤ s.length)
    (hbig : BHV2_MAX_TYPE_LENGTH < leNat (s.take 8)) :
    read_value_header s = (Except.error BhvErr.formatError, s.drop 8) := by
  have hu : read_uint64_posix s = (Except.ok (leNat (s.take 8)), s.drop 8) := by
    rw [read_uint64_posix, if_pos h8]
  simp only [read_value_header]
  rw [run_bind_ok hu, if_pos hbig]
  rfl

/-!  Claim theorems. -/

/-- C1: for every well-formed encoded value (one a full decode accepts), at
any dtype and nesting depth, skipping it (mode 2) leaves the cursor on
exactly the bytes that follow the value under a full decode (mode 1): both
modes consume the same number of bytes, so any marker bytes placed after the
value read back identically. -/
theorem skip_value_matches_read_value (fuel : Nat) (s : List Nat)
    (v : BhvValue) (rest : List Nat)
    (h : bhv2_read_value_posix fuel s = (Except.ok v, rest)) :
    bhv2_skip_value_posix fuel s = (Except.ok (), rest) :=
  skip_of_read_value fuel s v rest h

theorem skip_value_matches_read_value_witness :
    bhv2_read_value_posix 3 c1_sample_bytes = (Except.ok c1_sample_value, [1, 2, 3]) ∧
      bhv2_skip_value_posix 3 c1_sample_bytes = (Except.ok (), [1, 2, 3]) :=
  ⟨by rfl,
    skip_value_matches_read_value 3 c1_sample_bytes c1_sample_value [1, 2, 3] (by rfl)⟩

/-- C2: selective decode (mode 3) of a struct value returns the struct a full
decode would return, with every wanted field slot present (same name, same
value) and every other slot absent — no name and no value stored, not the
name with a null value — and it consumes exactly the bytes the full decode
consumes (the resulting file states are equal). -/
theorem selective_decode_matches_full_decode (fuel : Nat) (f : Bhv2File)
    (wanted : Option (List (List Nat))) (v : BhvValue) (f' : Bhv2File)
    (h : bhv2_read_variable_data fuel f = (Except.ok v, f'))
    (hs : v.dtype = MatlabDtype.struct) :
    bhv2_read_variable_data_selective fuel f wanted =
      (Except.ok (selectiveMask wanted v), f') :=
  selective_read_general wanted h hs

theorem selective_decode_matches_full_decode_witness :
    bhv2_read_variable_data_selective 2 c2_sample_file (some c2_wanted) =
      (Except.ok (selectiveMask (some c2_wanted) c2_sample_value),
        c2_sample_file_after) ∧
      selectiveMask (some c2_wanted) c2_sample_value =
        BhvValue.structArr [1] 1 3
          [(some (ascii "A"), some (BhvValue.numeric MatlabDtype.uint8 [1] 1 [10])),
           (none, none),
           (some (ascii "C"), some (BhvValue.numeric MatlabDtype.uint8 [1] 1 [30]))] :=
  ⟨selective_decode_matches_full_decode 2 c2_sample_file (some c2_wanted)
      c2_sample_value c2_sample_file_after (by rfl) (by rfl),
    by rfl⟩

/-- C5: an input whose first 8 bytes encode a tag length above
`BHV2_MAX_TYPE_LENGTH` fails mode-1 decode with `FormatError`, consuming
exactly the 8 bytes of the length field — no value (in particular no Unknown
or zero substitute) is produced. -/
theorem oversized_tag_length_aborts_read (fuel : Nat) (s : List Nat)
    (h8 : 8 ≤ s.length)
    (hbig : BHV2_MAX_TYPE_LENGTH < leNat (s.take 8)) :
    bhv2_read_value_posix fuel s = (Except.error BhvErr.formatError, s.drop 8) := by
  show (read_value_header >>= fun p =>
    (match p with
     | (d, ds) => read_array_data_posix fuel d ds)) s = _
  rw [run_bind_err (header_oversized_tag h8 hbig)]

theorem oversized_tag_length_aborts_read_witness :
    bhv2_read_value_posix 5 (u64le 101 ++ [1, 2]) =
      (Except.error BhvErr.formatError, [1, 2]) :=
  oversized_tag_length_aborts_read 5 (u64le 101 ++ [1, 2]) (by decide) (by decide)

/-- C6: whenever the stream is not in the awaiting-value state
(`at_variable_data` false), each of `read_value`, `read_value_selective` and
`skip_value` fails with `FormatError`, consumes no bytes, and leaves the file
state unchanged. -/
theorem value_ops_outside_awaiting_value_fail (fuel : Nat) (f : Bhv2File)
    (wanted : Option (List (List Nat)))
    (h : f.at_variable_data = false) :
    bhv2_read_variable_data fuel f = (Except.error BhvErr.formatError, f) ∧
      bhv2_read_variable_data_selective fuel f wanted =
        (Except.error BhvErr.formatError, f) ∧
      bhv2_skip_variable_data fuel f = (Except.error BhvErr.formatError, f) := by
  refine ⟨?_, ?_, ?_⟩
  · rw [bhv2_read_variable_data, h]
    rfl
  · rw [bhv2_read_variable_data_selective, h]
    rfl
  · rw [bhv2_skip_variable_data, h]
    rfl

theorem value_ops_outside_awaiting_value_fail_witness :
    bhv2_read_variable_data 4
        { stream := [1, 2, 3], file_size := 3, at_variable_data := false } =
      (Except.error BhvErr.formatError,
        { stream := [1, 2, 3], file_size := 3, at_variable_data := false }) ∧
      bhv2_read_variable_data_selective 4
          { stream := [1, 2, 3], file_size := 3, at_variable_data := false }
          (some [ascii "A"]) =
        (Except.error BhvErr.formatError,
          { stream := [1, 2, 3], file_size := 3, at_variable_data := false }) ∧
      bhv2_skip_variable_data 4
          { stream := [1, 2, 3], file_size := 3, at_variable_data := false } =
        (Except.error BhvErr.formatError,
          { stream := [1, 2, 3], file_size := 3, at_variable_data := false }) :=
  value_ops_outside_awaiting_value_fail 4
    { stream := [1, 2, 3], file_size := 3, at_variable_data := false }
    (some [ascii "A"]) rfl

/-- C7: when the decoded top-level value is not a struct, selective decode
with any wanted set falls back to a full decode: it returns the identical
value and leaves the identical file state. -/
theorem selective_decode_falls_back_for_nonstruct (fuel : Nat) (f : Bhv2File)
    (wanted : Option (List (List Nat))) (v : BhvValue) (f' : Bhv2File)
    (h : bhv2_read_variable_data fuel f = (Except.ok v, f'))
    (hs : v.dtype ≠ MatlabDtype.struct) :
    bhv2_read_variable_data_selective fuel f wanted = (Except.ok v, f') :=
  selective_nonstruct_general h hs

theorem selective_decode_falls_back_for_nonstruct_witness :
    bhv2_read_variable_data_selective 1 c7_sample_file (some [ascii "A"]) =
      (Except.ok
        (BhvValue.numeric MatlabDtype.int32 [2] 2 [1, 0, 0, 0, 254, 255, 255, 255]),
        { stream := [9], file_size := c7_sample_bytes.length,
          at_variable_data := false }) :=
  selective_decode_falls_back_for_nonstruct 1 c7_sample_file (some [ascii "A"])
    (BhvValue.numeric MatlabDtype.int32 [2] 2 [1, 0, 0, 0, 254, 255, 255, 255])
    { stream := [9], file_size := c7_sample_bytes.length,
      at_variable_data := false }
    (by rfl) (by decide)

/-- C10: selective decode with a NULL wanted array on a well-formed struct
value succeeds, consumes the value's whole encoded extent (same final file
state as the full decode), and returns a struct whose `total * n_fields`
slots are all absent (no name, no value) while keeping the decoded `dims`,
`total` and `n_fields`. -/
theorem selective_null_wanted_blanks_all_slots (fuel : Nat) (f : Bhv2File)
    (f' : Bhv2File) (dims : List Nat) (total n_fields : Nat)
    (fields : List (Option (List Nat) × Option BhvValue))
    (h : bhv2_read_variable_data fuel f =
      (Except.ok (BhvValue.structArr dims total n_fields fields), f')) :
    bhv2_read_variable_data_selective fuel f none =
      (Except.ok (BhvValue.structArr dims total n_fields
        (List.replicate (total * n_fields) (none, none))), f') := by
  have hmask := selective_read_general none h rfl
  have hlen : fields.length = total * n_fields := by
    rcases variable_data_ok h with ⟨t, hflag, hread, hf'⟩
    rcases read_value_ok hread with ⟨d, dims', s₁, hhdr, harr⟩
    have hshape := read_array_shape harr
    have hd : d = MatlabDtype.struct := hshape.1.symm
    subst hd
    cases fuel with
    | zero =>
      rw [read_array_data_posix, run_throwErr] at harr
      cases harr
    | succ fuelF =>
      have harr' : read_struct_array_core (bhv2_read_value_posix fuelF) dims' s₁ =
          (Except.ok (BhvValue.structArr dims total n_fields fields), t) := harr
      rcases read_struct_core_ok harr' with ⟨nf', fields', s₂, hnf, hfields, heq⟩
      injection heq with h1 h2 h3 h4
      rw [h4, read_struct_fields_length hfields, h2, h3]
  rw [hmask]
  have hval : selectiveMask none (BhvValue.structArr dims total n_fields fields) =
      BhvValue.structArr dims total n_fields
        (List.replicate (total * n_fields) (none, none)) := by
    show BhvValue.structArr dims total n_fields (fields.map (selectiveMaskSlot none)) = _
    rw [map_maskSlot_none, hlen]
  rw [hval]

theorem selective_null_wanted_blanks_all_slots_witness :
    bhv2_read_variable_data_selective 2 c2_sample_file none =
      (Except.ok (BhvValue.structArr [1] 1 3
        (List.replicate 3 (none, none))), c2_sample_file_after) :=
  selective_null_wanted_blanks_all_slots 2 c2_sample_file c2_sample_file_after
    [1] 1 3
    [(some (ascii "A"), some (BhvValue.numeric MatlabDtype.uint8 [1] 1 [10])),
     (some (ascii "B"), some (BhvValue.numeric MatlabDtype.uint8 [1] 1 [20])),
     (some (ascii "C"), some (BhvValue.numeric MatlabDtype.uint8 [1] 1 [30]))]
    (by rfl)

/-!  The data-model invariant holds for every decoded value (C9). -/

theorem read_fields_inv {readVal : StreamM BhvValue}
    (hinv : ∀ s v t, readVal s = (Except.ok v, t) → value_inv v = true) :
    ∀ count {s : List Nat} {fs} {t : List Nat},
      read_struct_fields readVal count s = (Except.ok fs, t) →
      fields_inv fs = true := by
  intro count
  induction count with
  | zero =>
    intro s fs t h
    rw [show read_struct_fields readVal 0 = pure [] from rfl, run_pure] at h
    cases h
    rfl
  | succ count ih =>
    intro s fs t h
    rcases bind_eq_ok.1 h with ⟨name_len, s₁, -, h⟩
    by_cases hlen : name_len > BHV2_MAX_NAME_LENGTH
    · rw [if_pos hlen, run_throwErr] at h
      cases h
    · rw [if_neg hlen] at h
      rcases bind_eq_ok.1 h with ⟨name, s₂, -, h⟩
      rcases bind_eq_ok.1 h with ⟨v, s₃, hv, h⟩
      rcases bind_eq_ok.1 h with ⟨rest, s₄, hrest, h⟩
      rw [run_pure] at h
      cases h
      show (value_inv v && fields_inv rest) = true
      rw [hinv _ _ _ hv, ih hrest]
      rfl

theorem read_cells_inv {readData : MatlabDtype → List Nat → StreamM BhvValue}
    (hinv : ∀ d ds s v t, readData d ds s = (Except.ok v, t) → value_inv v = true) :
    ∀ count {s : List Nat} {vs} {t : List Nat},
      read_cell_elems readData count s = (Except.ok vs, t) →
      values_inv vs = true ∧ vs.length = count := by
  intro count
  induction count with
  | zero =>
    intro s vs t h
    rw [show read_cell_elems readData 0 = pure [] from rfl, run_pure] at h
    cases h
    exact ⟨rfl, rfl⟩
  | succ count ih =>
    intro s vs t h
    rcases bind_eq_ok.1 h with ⟨name_len, s₁, -, h⟩
    rcases bind_eq_ok.1 h with ⟨u, s₂, -, h⟩
    rcases bind_eq_ok.1 h with ⟨p, s₃, -, h⟩
    obtain ⟨d, ds⟩ := p
    rcases bind_eq_ok.1 h with ⟨v, s₄, hv, h⟩
    rcases bind_eq_ok.1 h with ⟨rest, s₅, hrest, h⟩
    rw [run_pure] at h
    cases h
    rcases ih hrest with ⟨hr, hl⟩
    constructor
    · show (value_inv v && values_inv rest) = true
      rw [hinv _ _ _ _ _ hv, hr]
      rfl
    · simp [hl]

theorem read_array_inv : ∀ (fuel : Nat) (d : MatlabDtype) (dims : List Nat)
    {s : List Nat} {v : BhvValue} {t : List Nat},
    read_array_data_posix fuel d dims s = (Except.ok v, t) → value_inv v = true := by
  intro fuel
  induction fuel with
  | zero =>
    intro d dims s v t h
    rw [read_array_data_posix, run_throwErr] at h
    cases h
  | succ fuel ih =>
    have hval : ∀ s v t, bhv2_read_value_posix fuel s = (Except.ok v, t) →
        value_inv v = true := by
      intro s v t h
      rcases read_value_ok h with ⟨d, dims, s₁, -, harr⟩
      exact ih d dims harr
    intro d dims s v t h
    cases d with
    | char =>
      rcases read_char_ok h with ⟨hle, rfl, -⟩
      show ((computeTotal dims == computeTotal dims) &&
        ((List.take (computeTotal dims) s).length == computeTotal dims)) = true
      simp [List.length_take, Nat.min_eq_left hle]
    | struct =>
      rcases read_struct_core_ok h with ⟨nf, fields, s₁, -, hfields, rfl⟩
      show ((computeTotal dims == computeTotal dims) &&
        (fields.length == computeTotal dims * nf) && fields_inv fields) = true
      rw [read_struct_fields_length hfields, read_fields_inv hval _ hfields]
      simp
    | cell =>
      rcases read_cell_core_ok h with ⟨cells, hcells, rfl⟩
      rcases read_cells_inv (fun d ds s v t hh => ih d ds hh) _ hcells with ⟨hv, hl⟩
      show ((computeTotal dims == computeTotal dims) &&
        (cells.length == computeTotal dims) && values_inv cells) = true
      rw [hl, hv]
      simp
    | unknown =>
      rw [show read_array_data_posix (fuel + 1) MatlabDtype.unknown dims =
            throwErr BhvErr.formatError from rfl, run_throwErr] at h
      cases h
    | double =>
      rcases read_numeric_ok h with ⟨hn, hle, rfl, -⟩
      simp [value_inv, List.length_take, Nat.min_eq_left hle, hn]
    | single =>
      rcases read_numeric_ok h with ⟨hn, hle, rfl, -⟩
      simp [value_inv, List.length_take, Nat.min_eq_left hle, hn]
    | uint8 =>
      rcases read_numeric_ok h with ⟨hn, hle, rfl, -⟩
      simp [value_inv, List.length_take, Nat.min_eq_left hle, hn]
    | uint16 =>
      rcases read_numeric_ok h with ⟨hn, hle, rfl, -⟩
      simp [value_inv, List.length_take, Nat.min_eq_left hle, hn]
    | uint32 =>
      rcases read_numeric_ok h with ⟨hn, hle, rfl, -⟩
      simp [value_inv, List.length_take, Nat.min_eq_left hle, hn]
    | uint64 =>
      rcases read_numeric_ok h with ⟨hn, hle, rfl, -⟩
      simp [value_inv, List.length_take, Nat.min_eq_left hle, hn]
    | int8 =>
      rcases read_numeric_ok h with ⟨hn, hle, rfl, -⟩
      simp [value_inv, List.length_take, Nat.min_eq_left hle, hn]
    | int16 =>
      rcases read_numeric_ok h with ⟨hn, hle, rfl, -⟩
      simp [value_inv, List.length_take, Nat.min_eq_left hle, hn]
    | int32 =>
      rcases read_numeric_ok h with ⟨hn, hle, rfl, -⟩
      simp [value_inv, List.length_take, Nat.min_eq_left hle, hn]
    | int64 =>
      rcases read_numeric_ok h with ⟨hn, hle, rfl, -⟩
      simp [value_inv, List.length_take, Nat.min_eq_left hle, hn]
    | logical =>
      rcases read_numeric_ok h with ⟨hn, hle, rfl, -⟩
      simp [value_inv, List.length_take, Nat.min_eq_left hle, hn]

theorem read_value_inv {fuel : Nat} {s : List Nat} {v : BhvValue} {t : List Nat}
    (h : bhv2_read_value_posix fuel s = (Except.ok v, t)) : value_inv v = true := by
  rcases read_value_ok h with ⟨d, dims, s₁, -, harr⟩
  exact read_array_inv fuel d dims harr

theorem selective_fields_inv (fuel : Nat) (wanted : Option (List (List Nat))) :
    ∀ count {s : List Nat} {fs} {t : List Nat},
      read_selective_fields fuel wanted count s = (Except.ok fs, t) →
      fields_inv fs = true ∧ fs.length = count := by
  intro count
  induction count with
  | zero =>
    intro s fs t h
    rw [show read_selective_fields fuel wanted 0 = pure [] from rfl, run_pure] at h
    cases h
    exact ⟨rfl, rfl⟩
  | succ count ih =>
    intro s fs t h
    rcases bind_eq_ok.1 h with ⟨name_len, s₁, -, h⟩
    by_cases hlen : name_len > BHV2_MAX_NAME_LENGTH
    · rw [if_pos hlen, run_throwErr] at h
      cases h
    · rw [if_neg hlen] at h
      rcases bind_eq_ok.1 h with ⟨name, s₂, -, h⟩
      by_cases hw : is_wanted_field wanted name = true
      · rw [if_pos hw] at h
        rcases bind_eq_ok.1 h with ⟨v, s₃, hv, h⟩
        rcases bind_eq_ok.1 h with ⟨rest, s₄, hrest, h⟩
        rw [run_pure] at h
        cases h
        rcases ih hrest with ⟨hr, hl⟩
        constructor
        · show (value_inv v && fields_inv rest) = true
          rw [read_value_inv hv, hr]
          rfl
        · simp [hl]
      · rw [if_neg hw] at h
        rcases bind_eq_ok.1 h with ⟨u, s₃, -, h⟩
        rcases bind_eq_ok.1 h with ⟨rest, s₄, hrest, h⟩
        rw [run_pure] at h
        cases h
        rcases ih hrest with ⟨hr, hl⟩
        exact ⟨hr, by simp [hl]⟩

theorem selective_variable_inv {fuel : Nat} {f : Bhv2File}
    {wanted : Option (List (List Nat))} {v : BhvValue} {f' : Bhv2File}
    (h : bhv2_read_variable_data_selective fuel f wanted = (Except.ok v, f')) :
    value_inv v = true := by
  cases hf : f.at_variable_data with
  | false =>
    rw [bhv2_read_variable_data_selective, hf] at h
    simp at h
  | true =>
    rw [bhv2_read_variable_data_selective, hf] at h
    simp only [Bool.not_true, Bool.false_eq_true, if_false] at h
    cases hhdr : read_value_header f.stream with
    | mk r s₁ =>
      rw [hhdr] at h
      cases r with
      | error e => simp at h
      | ok p =>
        obtain ⟨d, dims⟩ := p
        simp only [] at h
        by_cases hd : d = MatlabDtype.struct
        · rw [if_pos hd] at h
          cases hsel : read_struct_selective_posix fuel dims wanted s₁ with
          | mk r₂ s₂ =>
            rw [hsel] at h
            cases r₂ with
            | error e => simp at h
            | ok w =>
              simp only [Prod.mk.injEq, Except.ok.injEq] at h
              obtain ⟨rfl, -⟩ := h
              simp only [read_struct_selective_posix] at hsel
              rcases bind_eq_ok.1 hsel with ⟨nf, s₃, -, hsel⟩
              rcases bind_eq_ok.1 hsel with ⟨fields, s₄, hfields, hsel⟩
              rw [run_pure] at hsel
              cases hsel
              rcases selective_fields_inv fuel wanted _ hfields with ⟨hi, hl⟩
              show ((computeTotal dims == computeTotal dims) &&
                (fields.length == computeTotal dims * nf) &&
                fields_inv fields) = true
              rw [hl, hi]
              simp
        · rw [if_neg hd] at h
          cases harr : read_array_data_posix fuel d dims s₁ with
          | mk r₂ s₂ =>
            rw [harr] at h
            cases r₂ with
            | error e => simp at h
            | ok w =>
              simp only [Prod.mk.injEq, Except.ok.injEq] at h
              obtain ⟨rfl, -⟩ := h
              exact read_array_inv fuel d dims harr

theorem foldl_mul_mod_zero : ∀ l : List Nat,
    l.foldl (fun a d => a * d % U64MOD) 0 = 0 := by
  intro l
  induction l with
  | nil => rfl
  | cons d rest ih =>
    show List.foldl (fun a d => a * d % U64MOD) (0 * d % U64MOD) rest = 0
    rw [Nat.zero_mul]
    show List.foldl (fun a d => a * d % U64MOD) (0 % U64MOD) rest = 0
    rw [Nat.zero_mod]
    exact ih

theorem computeTotal_zero_of_mem {dims : List Nat} (h : 0 ∈ dims) :
    computeTotal dims = 0 := by
  have haux : ∀ (l : List Nat) (acc : Nat), 0 ∈ l →
      l.foldl (fun a d => a * d % U64MOD) acc = 0 := by
    intro l
    induction l with
    | nil => intro acc hmem; cases hmem
    | cons d rest ih =>
      intro acc hmem
      rcases List.mem_cons.1 hmem with h0 | h0
      · show List.foldl (fun a d => a * d % U64MOD) (acc * d % U64MOD) rest = 0
        rw [← h0, Nat.mul_zero, Nat.zero_mod]
        exact foldl_mul_mod_zero rest
      · exact ih _ h0
  exact haux dims 1 h

/-- C9 (amended: the stored `total` is the product of the dims computed in
wrapping `uint64_t` arithmetic — equal to the exact product whenever that
product fits in 64 bits, and 0 whenever some dim is 0): every value produced
by the full or selective decode satisfies the data-model invariant
`value_inv` — its `total` is the wrapping product of its dims and the payload
holds exactly `total` elements (numeric: `total * width` bytes with the
`size_t` wrap, char: `total` bytes, struct: `total * n_fields` slots, cell:
`total` children), recursively at every nesting level. -/
theorem decoded_values_satisfy_data_model_inv :
    (∀ (fuel : Nat) (s : List Nat) (v : BhvValue) (t : List Nat),
      bhv2_read_value_posix fuel s = (Except.ok v, t) → value_inv v = true) ∧
      (∀ (fuel : Nat) (f : Bhv2File) (wanted : Option (List (List Nat)))
          (v : BhvValue) (f' : Bhv2File),
        bhv2_read_variable_data_selective fuel f wanted = (Except.ok v, f') →
          value_inv v = true) ∧
      (∀ dims : List Nat, 0 ∈ dims → computeTotal dims = 0) :=
  ⟨fun _ _ _ _ h => read_value_inv h,
    fun _ _ _ _ _ h => selective_variable_inv h,
    fun _ h => computeTotal_zero_of_mem h⟩

theorem decoded_values_satisfy_data_model_inv_witness :
    value_inv c1_sample_value = true ∧ computeTotal [3, 0, 5] = 0 :=
  ⟨decoded_values_satisfy_data_model_inv.1 3 c1_sample_bytes c1_sample_value
      [1, 2, 3] (by rfl),
    decoded_values_satisfy_data_model_inv.2.2 [3, 0, 5] (by decide)⟩

/-- C9, counterexample to the claim as stated: dims whose exact product is
`2 ^ 64` decode (mode 1) to a value whose `total` is the wrapped product `0`,
not the mathematical product of the dims. -/
theorem decoded_total_wraps_counterexample :
    bhv2_read_value_posix 1
        (encStr "double" ++ u64le 2 ++ u64le (2 ^ 32) ++ u64le (2 ^ 32)) =
      (Except.ok (BhvValue.numeric MatlabDtype.double [2 ^ 32, 2 ^ 32] 0 []), []) ∧
      ¬((BhvValue.numeric MatlabDtype.double [2 ^ 32, 2 ^ 32] 0 []).total =
        List.foldl (fun a d => a * d) 1 [2 ^ 32, 2 ^ 32]) :=
  ⟨by rfl, by decide⟩

theorem struct_get_scan_eq_find (fields : List (Option (List Nat) × Option BhvValue))
    (field : List Nat) :
    ∀ (count pos : Nat), struct_get_scan fields field pos count =
      (match ((fields.drop pos).take count).find? (slotMatches field) with
       | some slot => StructGetResult.found slot.2
       | none => StructGetResult.fieldNotFound) := by
  intro count
  induction count with
  | zero =>
    intro pos
    simp [struct_get_scan]
  | succ count ih =>
    intro pos
    by_cases hpos : pos < fields.length
    · rw [List.drop_eq_getElem_cons hpos, List.take_succ_cons, List.find?_cons]
      show (match (fields.getD pos (none, none)).1 with
        | none => struct_get_scan fields field (pos + 1) count
        | some nm =>
          if cstr nm = cstr field then
            StructGetResult.found (fields.getD pos (none, none)).2
          else struct_get_scan fields field (pos + 1) count) = _
      rw [List.getD_eq_getElem _ _ hpos]
      cases hslot : (fields[pos]).1 with
      | none =>
        show struct_get_scan fields field (pos + 1) count = _
        rw [show slotMatches field (fields[pos]) = false by
          simp [slotMatches, hslot]]
        exact ih (pos + 1)
      | some nm =>
        show (if cstr nm = cstr field then
            StructGetResult.found (fields[pos]).2
          else struct_get_scan fields field (pos + 1) count) = _
        by_cases heq : cstr nm = cstr field
        · rw [if_pos heq, show slotMatches field (fields[pos]) = true by
            simp [slotMatches, hslot, heq]]
        · rw [if_neg heq, show slotMatches field (fields[pos]) = false by
            simp [slotMatches, hslot, heq]]
          rw [ih (pos + 1)]
    · have hge : fields.length ≤ pos := Nat.le_of_not_lt hpos
      rw [List.drop_eq_nil_of_le hge]
      show (match (fields.getD pos (none, none)).1 with
        | none => struct_get_scan fields field (pos + 1) count
        | some nm =>
          if cstr nm = cstr field then
            StructGetResult.found (fields.getD pos (none, none)).2
          else struct_get_scan fields field (pos + 1) count) = _
      rw [List.getD_eq_default _ _ hge]
      show struct_get_scan fields field (pos + 1) count = _
      rw [ih (pos + 1), List.drop_eq_nil_of_le (Nat.le_succ_of_le hge)]
      simp [List.take_nil]

/-- C8: `struct_field(value, name, i)` with `i < total` scans exactly element
`i`'s `n_fields` slots (flat slots `i * n_fields ..< i * n_fields + n_fields`),
skips slots with an absent name without matching them, and returns the stored
value of the first slot whose name matches; with no matching named slot it
reports not-found, and an element index `i ≥ total` reports not-found without
scanning. -/
theorem struct_get_characterization (dims : List Nat) (total n_fields : Nat)
    (fields : List (Option (List Nat) × Option BhvValue)) (field : List Nat)
    (index : Nat) :
    (index ≥ total →
      bhv2_struct_get (BhvValue.structArr dims total n_fields fields) field index =
        StructGetResult.indexOutOfBounds) ∧
      (index < total →
        bhv2_struct_get (BhvValue.structArr dims total n_fields fields) field index =
          (match ((fields.drop (index * n_fields)).take n_fields).find?
              (slotMatches field) with
           | some slot => StructGetResult.found slot.2
           | none => StructGetResult.fieldNotFound)) := by
  constructor
  · intro h
    show (if index ≥ total then StructGetResult.indexOutOfBounds
      else struct_get_scan fields field (index * n_fields) n_fields) = _
    rw [if_pos h]
  · intro h
    show (if index ≥ total then StructGetResult.indexOutOfBounds
      else struct_get_scan fields field (index * n_fields) n_fields) = _
    rw [if_neg (Nat.not_le.2 h)]
    exact struct_get_scan_eq_find fields field n_fields (index * n_fields)

theorem struct_get_characterization_witness :
    bhv2_struct_get (BhvValue.structArr [2] 2 2 c8_sample_fields) (ascii "X") 1 =
      (match ((c8_sample_fields.drop (1 * 2)).take 2).find? (slotMatches (ascii "X")) with
       | some slot => StructGetResult.found slot.2
       | none => StructGetResult.fieldNotFound) ∧
      bhv2_struct_get (BhvValue.structArr [2] 2 2 c8_sample_fields) (ascii "X") 2 =
        StructGetResult.indexOutOfBounds :=
  ⟨(struct_get_characterization [2] 2 2 c8_sample_fields (ascii "X") 1).2
      (by decide),
    (struct_get_characterization [2] 2 2 c8_sample_fields (ascii "X") 2).1
      (by decide)⟩

/-!  C3: which length bounds are enforced where. -/

theorem u64le_length (n : Nat) : (u64le n).length = 8 := rfl

theorem leNat_u64le {n : Nat} (h : n < U64MOD) : leNat (u64le n) = n := by
  rw [show U64MOD = 2 ^ 64 from rfl] at h
  simp [u64le, leNat]
  omega

theorem read_uint64_front {n : Nat} (rest : List Nat) (h : n < U64MOD) :
    read_uint64_posix (u64le n ++ rest) = (Except.ok n, rest) := by
  rw [read_uint64_posix,
    if_pos (by simp [u64le] : 8 ≤ (u64le n ++ rest).length),
    List.take_left' (u64le_length n), List.drop_left' (u64le_length n),
    leNat_u64le h]

theorem read_string_front (l rest : List Nat) :
    read_string_posix l.length (l ++ rest) = (Except.ok l, rest) := by
  rw [read_string_posix, if_pos (by simp : l.length ≤ (l ++ rest).length),
    List.take_left' rfl, List.drop_left' rfl]

/-- An oversized dimension count aborts the shared value header with
`FormatError` (after a valid, known tag). -/
theorem header_oversized_ndims {tag : List Nat} {nd : Nat} (rest : List Nat)
    (hlen : tag.length ≤ BHV2_MAX_TYPE_LENGTH)
    (hknown : matlab_dtype_from_string tag ≠ MatlabDtype.unknown)
    (hnd : BHV2_MAX_NDIMS < nd) (hnd64 : nd < U64MOD) :
    read_value_header (u64le tag.length ++ tag ++ u64le nd ++ rest) =
      (Except.error BhvErr.formatError, rest) := by
  have h64 : tag.length < U64MOD :=
    Nat.lt_of_le_of_lt hlen (by norm_num [BHV2_MAX_TYPE_LENGTH, U64MOD])
  simp only [read_value_header]
  simp only [List.append_assoc]
  rw [run_bind_ok (read_uint64_front (tag ++ (u64le nd ++ rest)) h64)]
  rw [if_neg (Nat.not_lt.2 hlen)]
  rw [run_bind_ok (read_string_front tag (u64le nd ++ rest))]
  rw [if_neg (by simpa using hknown)]
  rw [run_bind_ok (read_uint64_front rest hnd64)]
  rw [if_pos hnd]
  rfl

/-- The skip-mode loop reads a name length and seeks past that many bytes
with no check whatsoever against `BHV2_MAX_NAME_LENGTH`. -/
theorem skip_named_values_skips_any_name_length (skipVal : StreamM Unit)
    (count : Nat) (name rest : List Nat) (hL : name.length < U64MOD) :
    skip_named_values skipVal (count + 1) (u64le name.length ++ name ++ rest) =
      (skipVal >>= fun _ => skip_named_values skipVal count) rest := by
  show (read_uint64_posix >>= fun name_len =>
    skip_bytes_posix name_len >>= fun _ =>
    skipVal >>= fun _ =>
    skip_named_values skipVal count) _ = _
  rw [List.append_assoc, run_bind_ok (read_uint64_front (name ++ rest) hL)]
  rw [run_bind_ok (show skip_bytes_posix name.length (name ++ rest) =
    (Except.ok (), rest) by rw [run_skip_bytes, List.drop_left' rfl])]

/-- The mode-1 cell element loop likewise seeks past the element name with no
length check. -/
theorem read_cell_elems_skips_any_name_length
    (readData : MatlabDtype → List Nat → StreamM BhvValue) (count : Nat)
    (name rest : List Nat) (hL : name.length < U64MOD) :
    read_cell_elems readData (count + 1) (u64le name.length ++ name ++ rest) =
      (read_value_header >>= fun p =>
        (match p with
         | (d, ds) =>
           readData d ds >>= fun v =>
           read_cell_elems readData count >>= fun tail =>
           pure (v :: tail))) rest := by
  show (read_uint64_posix >>= fun name_len =>
    skip_bytes_posix name_len >>= fun _ =>
    read_value_header >>= fun p =>
    (match p with
     | (d, ds) =>
       readData d ds >>= fun v =>
       read_cell_elems readData count >>= fun tail =>
       pure (v :: tail))) _ = _
  rw [List.append_assoc, run_bind_ok (read_uint64_front (name ++ rest) hL)]
  rw [run_bind_ok (show skip_bytes_posix name.length (name ++ rest) =
    (Except.ok (), rest) by rw [run_skip_bytes, List.drop_left' rfl])]

/-- C3 (amended): an oversized tag length and an oversized dimension count
abort all three decode modes with `FormatError`; an oversized struct-field
name aborts the full (mode 1) and selective (mode 3) field loops with
`FormatError`; but the skip-mode (mode 2) loop seeks past a field or element
name of any length without checking it, and mode 1 likewise never checks a
cell element's name length. -/
theorem length_bound_enforcement :
    (∀ (fuel : Nat) (s : List Nat), 8 ≤ s.length →
      BHV2_MAX_TYPE_LENGTH < leNat (s.take 8) →
      bhv2_read_value_posix fuel s = (Except.error BhvErr.formatError, s.drop 8) ∧
        bhv2_skip_value_posix fuel s = (Except.error BhvErr.formatError, s.drop 8) ∧
        ∀ (f : Bhv2File) (wanted : Option (List (List Nat))),
          f.at_variable_data = true → f.stream = s →
          bhv2_read_variable_data_selective fuel f wanted =
            (Except.error BhvErr.formatError, { f with stream := s.drop 8 })) ∧
    (∀ (fuel : Nat) (tag : List Nat) (nd : Nat) (rest : List Nat),
      tag.length ≤ BHV2_MAX_TYPE_LENGTH →
      matlab_dtype_from_string tag ≠ MatlabDtype.unknown →
      BHV2_MAX_NDIMS < nd → nd < U64MOD →
      bhv2_read_value_posix fuel (u64le tag.length ++ tag ++ u64le nd ++ rest) =
          (Except.error BhvErr.formatError, rest) ∧
        bhv2_skip_value_posix fuel (u64le tag.length ++ tag ++ u64le nd ++ rest) =
          (Except.error BhvErr.formatError, rest) ∧
        ∀ (f : Bhv2File) (wanted : Option (List (List Nat))),
          f.at_variable_data = true →
          f.stream = u64le tag.length ++ tag ++ u64le nd ++ rest →
          bhv2_read_variable_data_selective fuel f wanted =
            (Except.error BhvErr.formatError, { f with stream := rest })) ∧
    (∀ (readVal : StreamM BhvValue) (fuel : Nat)
        (wanted : Option (List (List Nat))) (count : Nat) (s : List Nat),
      8 ≤ s.length → BHV2_MAX_NAME_LENGTH < leNat (s.take 8) →
      read_struct_fields readVal (count + 1) s =
          (Except.error BhvErr.formatError, s.drop 8) ∧
        read_selective_fields fuel wanted (count + 1) s =
          (Except.error BhvErr.formatError, s.drop 8)) ∧
    (∀ (skipVal : StreamM Unit) (count : Nat) (name rest : List Nat),
      name.length < U64MOD →
      skip_named_values skipVal (count + 1) (u64le name.length ++ name ++ rest) =
        (skipVal >>= fun _ => skip_named_values skipVal count) rest) ∧
    (∀ (readData : MatlabDtype → List Nat → StreamM BhvValue) (count : Nat)
        (name rest : List Nat),
      name.length < U64MOD →
      read_cell_elems readData (count + 1) (u64le name.length ++ name ++ rest) =
        (read_value_header >>= fun p =>
          (match p with
           | (d, ds) =>
             readData d ds >>= fun v =>
             read_cell_elems readData count >>= fun tail =>
             pure (v :: tail))) rest) := by
  refine ⟨?_, ?_, ?_, ?_, ?_⟩
  · intro fuel s h8 hbig
    refine ⟨?_, ?_, ?_⟩
    · show (read_value_header >>= fun p =>
        (match p with
         | (d, ds) => read_array_data_posix fuel d ds)) s = _
      rw [run_bind_err (header_oversized_tag h8 hbig)]
    · show (read_value_header >>= fun p =>
        (match p with
         | (d, ds) => skip_array_data_posix fuel d ds)) s = _
      rw [run_bind_err (header_oversized_tag h8 hbig)]
    · intro f wanted hflag hstream
      rw [bhv2_read_variable_data_selective, hflag]
      simp only [Bool.not_true, Bool.false_eq_true, if_false]
      rw [hstream, header_oversized_tag h8 hbig]
  · intro fuel tag nd rest hlen hknown hnd hnd64
    refine ⟨?_, ?_, ?_⟩
    · show (read_value_header >>= fun p =>
        (match p with
         | (d, ds) => read_array_data_posix fuel d ds)) _ = _
      rw [run_bind_err (header_oversized_ndims rest hlen hknown hnd hnd64)]
    · show (read_value_header >>= fun p =>
        (match p with
         | (d, ds) => skip_array_data_posix fuel d ds)) _ = _
      rw [run_bind_err (header_oversized_ndims rest hlen hknown hnd hnd64)]
    · intro f wanted hflag hstream
      rw [bhv2_read_variable_data_selective, hflag]
      simp only [Bool.not_true, Bool.false_eq_true, if_false]
      rw [hstream, header_oversized_ndims rest hlen hknown hnd hnd64]
  · intro readVal fuel wanted count s h8 hbig
    have hu : read_uint64_posix s = (Except.ok (leNat (s.take 8)), s.drop 8) := by
      rw [read_uint64_posix, if_pos h8]
    constructor
    · show (read_uint64_posix >>= fun name_len =>
        if name_len > BHV2_MAX_NAME_LENGTH then throwErr BhvErr.formatError
        else
          read_string_posix name_len >>= fun name =>
          readVal >>= fun v =>
          read_struct_fields readVal count >>= fun tail =>
          pure ((some name, some v) :: tail)) s = _
      rw [run_bind_ok hu, if_pos hbig]
      rfl
    · show (read_uint64_posix >>= fun name_len =>
        if name_len > BHV2_MAX_NAME_LENGTH then throwErr BhvErr.formatError
        else
          read_string_posix name_len >>= fun field_name =>
          if is_wanted_field wanted field_name then
            bhv2_read_value_posix fuel >>= fun v =>
            read_selective_fields fuel wanted count >>= fun tail =>
            pure ((some field_name, some v) :: tail)
          else
            bhv2_skip_value_posix fuel >>= fun _ =>
            read_selective_fields fuel wanted count >>= fun tail =>
            pure ((none, none) :: tail)) s = _
      rw [run_bind_ok hu, if_pos hbig]
      rfl
  · intro skipVal count name rest hL
    exact skip_named_values_skips_any_name_length skipVal count name rest hL
  · intro readData count name rest hL
    exact read_cell_elems_skips_any_name_length readData count name rest hL

theorem encDims_length (dims : List Nat) :
    (encDims dims).length = dims.length * 8 := by
  induction dims with
  | nil => rfl
  | cons d ds ih =>
    simp only [encDims, List.length_append, ih, u64le_length, List.length_cons]
    omega

theorem bytesToWords_encDims (dims : List Nat) (h : ∀ d ∈ dims, d < U64MOD) :
    bytesToWords dims.length (encDims dims) = dims := by
  induction dims with
  | nil => rfl
  | cons d ds ih =>
    show leNat ((u64le d ++ encDims ds).take 8) ::
        bytesToWords ds.length ((u64le d ++ encDims ds).drop 8) = d :: ds
    rw [List.take_left' (u64le_length d), List.drop_left' (u64le_length d),
      leNat_u64le (h d (List.mem_cons_self d ds)),
      ih (fun x hx => h x (List.mem_cons_of_mem d hx))]

theorem read_dims_front (dims rest : List Nat) (h : ∀ d ∈ dims, d < U64MOD) :
    read_dims dims.length (encDims dims ++ rest) = (Except.ok dims, rest) := by
  rw [read_dims,
    if_pos (by simp [encDims_length] :
      dims.length * 8 ≤ (encDims dims ++ rest).length),
    List.take_left' (encDims_length dims), List.drop_left' (encDims_length dims),
    bytesToWords_encDims dims h]

theorem read_value_header_front (tag dims rest : List Nat)
    (hlen : tag.length ≤ BHV2_MAX_TYPE_LENGTH)
    (hk : matlab_dtype_from_string tag ≠ MatlabDtype.unknown)
    (hnd : dims.length ≤ BHV2_MAX_NDIMS) (hd : ∀ d ∈ dims, d < U64MOD) :
    read_value_header
        (u64le tag.length ++ tag ++ u64le dims.length ++ encDims dims ++ rest) =
      (Except.ok (matlab_dtype_from_string tag, dims), rest) := by
  have h64tag : tag.length < U64MOD :=
    Nat.lt_of_le_of_lt hlen (by norm_num [BHV2_MAX_TYPE_LENGTH, U64MOD])
  have h64nd : dims.length < U64MOD :=
    Nat.lt_of_le_of_lt hnd (by norm_num [BHV2_MAX_NDIMS, U64MOD])
  simp only [read_value_header, List.append_assoc]
  rw [run_bind_ok (read_uint64_front _ h64tag)]
  rw [if_neg (Nat.not_lt.2 hlen)]
  rw [run_bind_ok (read_string_front tag _)]
  rw [if_neg hk]
  rw [run_bind_ok (read_uint64_front _ h64nd)]
  rw [if_neg (Nat.not_lt.2 hnd)]
  rw [run_bind_ok (read_dims_front dims rest hd)]
  rfl

theorem c3_name_length_large : BHV2_MAX_NAME_LENGTH < c3_name.length := by
  show BHV2_MAX_NAME_LENGTH < (List.replicate 10001 65).length
  rw [List.length_replicate]
  norm_num [BHV2_MAX_NAME_LENGTH]

theorem c3_name_length_u64 : c3_name.length < U64MOD := by
  show (List.replicate 10001 65).length < U64MOD
  rw [List.length_replicate]
  norm_num [U64MOD]

/-- C3, counterexample to the claim as stated: on a struct whose single field
name has length 10001, above `BHV2_MAX_NAME_LENGTH`, skip mode (mode 2)
succeeds — it raises no `FormatError` for the oversized name — whereas mode 1
on the same bytes aborts with `FormatError` at that name. -/
theorem skip_ignores_oversized_name_counterexample :
    BHV2_MAX_NAME_LENGTH < c3_name.length ∧
      bhv2_skip_value_posix 2 c3_oversized_name_bytes = (Except.ok (), []) ∧
      bhv2_read_value_posix 2 c3_oversized_name_bytes =
        (Except.error BhvErr.formatError, c3_name ++ c3_field_value_bytes) := by
  have hhdr := read_value_header_front (ascii "struct") [1] c3_struct_rest
    (by decide) (by decide) (by decide) (by decide)
  have hinner : (read_value_header >>= fun p =>
      (match p with
       | (d, ds) => skip_array_data_posix 1 d ds)) c3_field_value_bytes =
      (Except.ok (), []) := by
    show (read_value_header >>= fun p =>
      (match p with
       | (d, ds) => skip_array_data_posix 1 d ds))
      (u64le (ascii "double").length ++ ascii "double" ++
        u64le ([0] : List Nat).length ++ encDims [0] ++ ([] : List Nat)) = _
    rw [run_bind_ok (read_value_header_front (ascii "double") [0] []
      (by decide) (by decide) (by decide) (by decide))]
    rfl
  refine ⟨c3_name_length_large, ?_, ?_⟩
  · show (read_value_header >>= fun p =>
      (match p with
       | (d, ds) => skip_array_data_posix 2 d ds)) c3_oversized_name_bytes = _
    show (read_value_header >>= fun p =>
      (match p with
       | (d, ds) => skip_array_data_posix 2 d ds))
      (u64le (ascii "struct").length ++ ascii "struct" ++
        u64le ([1] : List Nat).length ++ encDims [1] ++ c3_struct_rest) = _
    rw [run_bind_ok hhdr]
    show (read_uint64_posix >>= fun n_fields =>
      skip_named_values
        (read_value_header >>= fun p =>
          (match p with
           | (d, ds) => skip_array_data_posix 1 d ds))
        (computeTotal [1] * n_fields))
      (u64le 1 ++ (u64le c3_name.length ++ c3_name ++ c3_field_value_bytes)) = _
    rw [run_bind_ok (read_uint64_front
      (u64le c3_name.length ++ c3_name ++ c3_field_value_bytes)
      (by norm_num [U64MOD]))]
    show skip_named_values
      (read_value_header >>= fun p =>
        (match p with
         | (d, ds) => skip_array_data_posix 1 d ds)) (0 + 1)
      (u64le c3_name.length ++ c3_name ++ c3_field_value_bytes) = _
    rw [skip_named_values_skips_any_name_length _ 0 c3_name c3_field_value_bytes
      c3_name_length_u64]
    rw [run_bind_ok hinner]
    rfl
  · show (read_value_header >>= fun p =>
      (match p with
       | (d, ds) => read_array_data_posix 2 d ds)) c3_oversized_name_bytes = _
    show (read_value_header >>= fun p =>
      (match p with
       | (d, ds) => read_array_data_posix 2 d ds))
      (u64le (ascii "struct").length ++ ascii "struct" ++
        u64le ([1] : List Nat).length ++ encDims [1] ++ c3_struct_rest) = _
    rw [run_bind_ok hhdr]
    have hfieldserr : read_struct_fields
        (read_value_header >>= fun p =>
          (match p with
           | (d, ds) => read_array_data_posix 1 d ds)) (0 + 1)
        (u64le c3_name.length ++ c3_name ++ c3_field_value_bytes) =
        (Except.error BhvErr.formatError, c3_name ++ c3_field_value_bytes) := by
      show (read_uint64_posix >>= fun name_len =>
        if name_len > BHV2_MAX_NAME_LENGTH then throwErr BhvErr.formatError
        else
          read_string_posix name_len >>= fun name =>
          (read_value_header >>= fun p =>
            (match p with
             | (d, ds) => read_array_data_posix 1 d ds)) >>= fun v =>
          read_struct_fields
            (read_value_header >>= fun p =>
              (match p with
               | (d, ds) => read_array_data_posix 1 d ds)) 0 >>= fun tail =>
          pure ((some name, some v) :: tail)) _ = _
      rw [List.append_assoc]
      rw [run_bind_ok (read_uint64_front (c3_name ++ c3_field_value_bytes)
        c3_name_length_u64)]
      rw [if_pos c3_name_length_large]
      rfl
    show (read_uint64_posix >>= fun n_fields =>
      read_struct_fields
        (read_value_header >>= fun p =>
          (match p with
           | (d, ds) => read_array_data_posix 1 d ds))
        (computeTotal [1] * n_fields) >>= fun fields =>
      pure (BhvValue.structArr [1] (computeTotal [1]) n_fields fields))
      (u64le 1 ++ (u64le c3_name.length ++ c3_name ++ c3_field_value_bytes)) = _
    rw [run_bind_ok (read_uint64_front
      (u64le c3_name.length ++ c3_name ++ c3_field_value_bytes)
      (by norm_num [U64MOD]))]
    show (read_struct_fields
        (read_value_header >>= fun p =>
          (match p with
           | (d, ds) => read_array_data_posix 1 d ds)) (0 + 1) >>= fun fields =>
      pure (BhvValue.structArr [1] (computeTotal [1]) 1 fields))
      (u64le c3_name.length ++ c3_name ++ c3_field_value_bytes) = _
    rw [run_bind_err hfieldserr]

theorem length_bound_enforcement_witness :
    bhv2_skip_value_posix 1 (u64le 101 ++ [4, 4]) =
        (Except.error BhvErr.formatError, [4, 4]) ∧
      bhv2_read_value_posix 1
          (u64le (ascii "double").length ++ ascii "double" ++ u64le 101 ++ [5]) =
        (Except.error BhvErr.formatError, [5]) ∧
      read_struct_fields (bhv2_read_value_posix 1) 1 (u64le 10001 ++ [6]) =
        (Except.error BhvErr.formatError, [6]) ∧
      skip_named_values (pure ()) 1
          (u64le ([65, 66] : List Nat).length ++ [65, 66] ++ [7]) =
        ((pure () : StreamM Unit) >>= fun _ => skip_named_values (pure ()) 0) [7] :=
  ⟨(length_bound_enforcement.1 1 (u64le 101 ++ [4, 4]) (by decide) (by decide)).2.1,
    (length_bound_enforcement.2.1 1 (ascii "double") 101 [5] (by decide) (by decide)
      (by decide) (by decide)).1,
    (length_bound_enforcement.2.2.1 (bhv2_read_value_posix 1) 1 none 0
      (u64le 10001 ++ [6]) (by decide) (by decide)).1,
    length_bound_enforcement.2.2.2.1 (pure ()) 0 [65, 66] [7] (by decide)⟩

/-!  C4: the trial iterator. -/

theorem atoiBytes_digits (ds : List Nat) (hne : ds ≠ [])
    (hdig : ∀ b ∈ ds, isDigitByte b = true) :
    atoiBytes ds = ((ds.foldl (fun acc d => acc * 10 + (d - 48)) 0 : Nat) : Int) := by
  obtain ⟨d, tl, rfl⟩ : ∃ d tl, ds = d :: tl := by
    cases ds with
    | nil => exact absurd rfl hne
    | cons d tl => exact ⟨d, tl, rfl⟩
  have hd : 48 ≤ d ∧ d ≤ 57 := by
    simpa [isDigitByte] using hdig d (List.mem_cons_self d tl)
  have hspace : isSpaceByte d = false := by
    simp only [isSpaceByte]
    simp only [Bool.or_eq_false_iff, decide_eq_false_iff_not]
    omega
  have h45 : ¬(d = 45) := by omega
  have h43 : ¬(d = 43) := by omega
  simp only [atoiBytes, List.dropWhile_cons, hspace, Bool.false_eq_true, if_false,
    List.getD_cons_zero]
  rw [if_neg (by tauto : ¬(d = 45 ∨ d = 43)),
    List.takeWhile_eq_self_iff.2 hdig]
  simp [h45]

theorem trial_name_of_digit_suffix (ds : List Nat) (hne : ds ≠ [])
    (hdig : ∀ b ∈ ds, isDigitByte b = true) :
    is_trial_variable_name (ascii "Trial" ++ ds) = true ∧
      cstr (ascii "Trial" ++ ds) = ascii "Trial" ++ ds := by
  obtain ⟨d, tl, rfl⟩ : ∃ d tl, ds = d :: tl := by
    cases ds with
    | nil => exact absurd rfl hne
    | cons d tl => exact ⟨d, tl, rfl⟩
  have hd : 48 ≤ d ∧ d ≤ 57 := by
    simpa [isDigitByte] using hdig d (List.mem_cons_self d tl)
  have hcstr : cstr (ascii "Trial" ++ d :: tl) = ascii "Trial" ++ d :: tl := by
    refine List.takeWhile_eq_self_iff.2 ?_
    intro b hb
    rcases List.mem_append.1 hb with hb | hb
    · rw [show ascii "Trial" = [84, 114, 105, 97, 108] by decide] at hb
      simp only [decide_eq_true_eq]
      fin_cases hb <;> omega
    · rcases List.mem_cons.1 hb with rfl | hb
      · simp only [decide_eq_true_eq]
        omega
      · have := hdig b (List.mem_cons_of_mem d hb)
        simp only [isDigitByte, Bool.and_eq_true, decide_eq_true_eq] at this
        simp only [decide_eq_true_eq]
        omega
  refine ⟨?_, hcstr⟩
  simp only [is_trial_variable_name, hcstr]
  rw [List.take_left' (show (ascii "Trial").length = 5 from rfl)]
  rw [List.getD_append_right _ _ _ _ (by simp [ascii])]
  simp only [show (5 : Nat) - (ascii "Trial").length = 0 by simp [ascii],
    List.getD_cons_zero]
  have : isDigitByte d = true := hdig d (List.mem_cons_self d tl)
  simp [this]

theorem extract_trial_info_defaults (file : MlTrialFile) (v : BhvValue) :
    ((bhv2_struct_get v (ascii "TrialError") 0).toPtr = none →
      (extract_trial_info file v).current_error_code = -1) ∧
      ((bhv2_struct_get v (ascii "Condition") 0).toPtr = none →
        (extract_trial_info file v).current_condition = -1) ∧
      ((bhv2_struct_get v (ascii "Block") 0).toPtr = none →
        (extract_trial_info file v).current_block = -1) := by
  refine ⟨fun h => ?_, fun h => ?_, fun h => ?_⟩ <;>
    simp [extract_trial_info, h]

theorem read_next_trial_loop_skips_nontrial (fuel : Nat) (flag : SkipDataFlag)
    (var_fuel : Nat) (file : MlTrialFile) (name : List Nat) (bf : Bhv2File)
    (hname : bhv2_read_next_variable_name file.bhv2_file = (some name, bf))
    (hnot : is_trial_variable_name name = false) :
    read_next_trial_loop fuel flag (var_fuel + 1) file =
      read_next_trial_loop fuel flag var_fuel
        { file with bhv2_file := (bhv2_skip_variable_data fuel bf).2 } := by
  simp only [read_next_trial_loop]
  rw [hname]
  simp only [hnot, Bool.false_eq_true, if_false]

theorem read_next_trial_loop_trial_step (fuel var_fuel : Nat)
    (file : MlTrialFile) (name : List Nat) (bf : Bhv2File)
    (trial_data : BhvValue) (bf' : Bhv2File)
    (hname : bhv2_read_next_variable_name file.bhv2_file = (some name, bf))
    (htrial : is_trial_variable_name name = true)
    (hdec : bhv2_read_variable_data_selective fuel bf (some trial_metadata_fields) =
      (Except.ok trial_data, bf')) :
    read_next_trial_loop fuel SkipDataFlag.skipData (var_fuel + 1) file =
      some (atoiBytes ((cstr name).drop 5),
        { extract_trial_info
            { file with
                bhv2_file := bf'
                current_trial_num := atoiBytes ((cstr name).drop 5) } trial_data
          with has_current := true }) := by
  simp only [read_next_trial_loop]
  rw [hname]
  simp only [htrial, if_true]
  rw [hdec]

/-- C4 (amended: the code treats every variable whose name starts with
`Trial` followed by at least one digit as a trial — the suffix need not be
all digits — with trial number `atoi` of the suffix, the value of the
leading digit run): a name passing the code's test is decoded (selectively,
in the metadata pass) and reported with trial number `atoi(name + 5)`; a
name failing the test is skipped via `skip_value` and the scan continues;
a trial struct lacking `TrialError`, `Condition` or `Block` reports `-1`
for that value; and on every name of the claim's form — `Trial` plus a
nonempty all-digit suffix — the code's test accepts and `atoi` returns
exactly the decimal value of the suffix. -/
theorem trial_iterator_behavior :
    (∀ (fuel var_fuel : Nat) (file : MlTrialFile) (name : List Nat)
        (bf : Bhv2File) (trial_data : BhvValue) (bf' : Bhv2File),
      bhv2_read_next_variable_name file.bhv2_file = (some name, bf) →
      is_trial_variable_name name = true →
      bhv2_read_variable_data_selective fuel bf (some trial_metadata_fields) =
        (Except.ok trial_data, bf') →
      read_next_trial_loop fuel SkipDataFlag.skipData (var_fuel + 1) file =
        some (atoiBytes ((cstr name).drop 5),
          { extract_trial_info
              { file with
                  bhv2_file := bf'
                  current_trial_num := atoiBytes ((cstr name).drop 5) } trial_data
            with has_current := true })) ∧
      (∀ (fuel : Nat) (flag : SkipDataFlag) (var_fuel : Nat)
          (file : MlTrialFile) (name : List Nat) (bf : Bhv2File),
        bhv2_read_next_variable_name file.bhv2_file = (some name, bf) →
        is_trial_variable_name name = false →
        read_next_trial_loop fuel flag (var_fuel + 1) file =
          read_next_trial_loop fuel flag var_fuel
            { file with bhv2_file := (bhv2_skip_variable_data fuel bf).2 }) ∧
      (∀ (file : MlTrialFile) (v : BhvValue),
        ((bhv2_struct_get v (ascii "TrialError") 0).toPtr = none →
          (extract_trial_info file v).current_error_code = -1) ∧
          ((bhv2_struct_get v (ascii "Condition") 0).toPtr = none →
            (extract_trial_info file v).current_condition = -1) ∧
          ((bhv2_struct_get v (ascii "Block") 0).toPtr = none →
            (extract_trial_info file v).current_block = -1)) ∧
      (∀ ds : List Nat, ds ≠ [] → (∀ b ∈ ds, isDigitByte b = true) →
        is_trial_variable_name (ascii "Trial" ++ ds) = true ∧
          atoiBytes ds =
            ((ds.foldl (fun acc d => acc * 10 + (d - 48)) 0 : Nat) : Int)) :=
  ⟨fun fuel var_fuel file name bf trial_data bf' h1 h2 h3 =>
      read_next_trial_loop_trial_step fuel var_fuel file name bf trial_data bf' h1 h2 h3,
    fun fuel flag var_fuel file name bf h1 h2 =>
      read_next_trial_loop_skips_nontrial fuel flag var_fuel file name bf h1 h2,
    fun file v => extract_trial_info_defaults file v,
    fun ds hne hdig =>
      ⟨(trial_name_of_digit_suffix ds hne hdig).1, atoiBytes_digits ds hne hdig⟩⟩

theorem trial_iterator_behavior_witness :
    read_next_trial_loop 3 SkipDataFlag.skipData (0 + 1) c4w_file =
      some (atoiBytes ((cstr (ascii "Trial7")).drop 5),
        { extract_trial_info
            { c4w_file with
                bhv2_file := c4w_bf1
                current_trial_num := atoiBytes ((cstr (ascii "Trial7")).drop 5) }
            (BhvValue.structArr [1] 1 0 [])
          with has_current := true }) ∧
      (extract_trial_info c4w_file (BhvValue.structArr [1] 1 0 [])).current_error_code = -1 ∧
      is_trial_variable_name (ascii "Trial" ++ ascii "42") = true ∧
      atoiBytes (ascii "42") =
        (((ascii "42").foldl (fun acc d => acc * 10 + (d - 48)) 0 : Nat) : Int) :=
  ⟨trial_iterator_behavior.1 3 0 c4w_file (ascii "Trial7") c4w_bf0
      (BhvValue.structArr [1] 1 0 []) c4w_bf1 (by rfl) (by decide) (by rfl),
    (trial_iterator_behavior.2.2.1 c4w_file (BhvValue.structArr [1] 1 0 [])).1 (by rfl),
    (trial_iterator_behavior.2.2.2 (ascii "42") (by decide) (by decide)).1,
    (trial_iterator_behavior.2.2.2 (ascii "42") (by decide) (by decide)).2⟩

/-- C4, counterexample to the claim as stated: the variable name `Trial1x`
is not `Trial` followed by a decimal integer suffix, so per the claim it
must be skipped; the code's test accepts it and the iterator reports it as
trial number 1 instead of skipping it. -/
theorem trial_name_suffix_counterexample :
    spec_is_trial_name (ascii "Trial1x") = false ∧
      is_trial_variable_name (ascii "Trial1x") = true ∧
      (read_next_trial 3 SkipDataFlag.skipData 2
          (open_input_file c4_counter_bytes)).map
        (fun p => (p.1, p.2.has_current, p.2.current_trial_num)) =
          some (1, true, 1) :=
  ⟨by decide, by decide, by decide⟩
